import Mathlib

/-!
Verification of the test-plan generation engine (generate-tests.js).

The program is shallowly embedded: every definition mirrors the
corresponding JavaScript function.  The two input documents
(feature-flags.json and test-definitions.json) are data, not code, so
the embedding takes them as explicit structured arguments, following the
data model of the specification.
-/

namespace BayesTest

/-- Dollar character of JavaScript replacement patterns. -/
def dollarChar : Char := Char.ofNat 36

/-- Backquote character (the JS preceding-portion pattern). -/
def backquoteChar : Char := Char.ofNat 96

/-- Single-quote character (the JS following-portion pattern). -/
def singleQuoteChar : Char := Char.ofNat 39

/-- JavaScript GetSubstitution for a string replacement under a regular
expression with no capture groups: inside the replacement text a doubled
dollar is one literal dollar, dollar-ampersand is the matched text,
dollar-backquote the portion of the original string before the match,
dollar-quote the portion after it; every other dollar (including a
trailing one and dollar-digit, since there are no capture groups) stays
literal. -/
def dollarSubst (matched before after : List Char) : List Char → List Char
  | [] => []
  | [c] => [c]
  | c :: d :: rest =>
    if c = dollarChar then
      if d = dollarChar then dollarChar :: dollarSubst matched before after rest
      else if d = '&' then matched ++ dollarSubst matched before after rest
      else if d = backquoteChar then before ++ dollarSubst matched before after rest
      else if d = singleQuoteChar then after ++ dollarSubst matched before after rest
      else c :: dollarSubst matched before after (d :: rest)
    else c :: dollarSubst matched before after (d :: rest)

/-- Fuel-indexed worker for global string replacement.  Mirrors
JavaScript String.prototype.replace with a global literal pattern and a
string replacement: scan left to right, replace each non-overlapping
occurrence, never re-scan inserted text, and expand the dollar patterns
of the replacement against the original string — `before` accumulates
the original text already scanned, and the text after the match is the
unscanned remainder.  Fuel is the length of the input, always sufficient
since every step consumes at least one character. -/
def replaceAllAux (pat rep : List Char) : Nat → List Char → List Char → List Char
  | _, _, [] => []
  | 0, _, s => s
  | Nat.succ n, before, c :: cs =>
    if pat.isPrefixOf (c :: cs) then
      dollarSubst pat before (List.drop (pat.length - 1) cs) rep ++
        replaceAllAux pat rep n (before ++ pat) (List.drop (pat.length - 1) cs)
    else
      c :: replaceAllAux pat rep n (before ++ [c]) cs

/-- Replacement continued after the already-scanned original prefix
`before`. -/
def replaceAllFrom (pat rep before s : List Char) : List Char :=
  replaceAllAux pat rep s.length before s

/-- Global replacement of `pat` by `rep` in `s`
(JS `s.replace(/pat/g, rep)` for a literal pattern). -/
def replaceAll (s pat rep : List Char) : List Char :=
  replaceAllFrom pat rep [] s

/-- A replacement text without dollars is inserted verbatim. -/
theorem dollarSubst_id (matched before after : List Char) :
    ∀ rep, dollarChar ∉ rep → dollarSubst matched before after rep = rep := by
  intro rep
  induction rep with
  | nil => intro _; rfl
  | cons c rest ih =>
    intro h
    have hc : c ≠ dollarChar := fun hx => h (hx ▸ List.mem_cons_self c rest)
    have hrest : dollarChar ∉ rest := fun hx => h (List.mem_cons_of_mem c hx)
    cases rest with
    | nil => rfl
    | cons d rest2 =>
      simp only [dollarSubst, if_neg hc]
      exact congrArg (c :: ·) (ih hrest)

theorem replaceAllAux_fuel (pat rep : List Char) :
    ∀ n m before s, s.length ≤ n → s.length ≤ m →
      replaceAllAux pat rep n before s = replaceAllAux pat rep m before s := by
  intro n
  induction n with
  | zero =>
    intro m before s hn _
    have hs : s = [] := List.eq_nil_of_length_eq_zero (Nat.le_zero.mp hn)
    subst hs
    cases m <;> rfl
  | succ n ih =>
    intro m before s hn hm
    cases s with
    | nil => cases m <;> rfl
    | cons c cs =>
      cases m with
      | zero => simp at hm
      | succ m =>
        simp only [replaceAllAux]
        have hcs : cs.length ≤ n := by
          simpa using Nat.lt_succ_iff.mp (Nat.lt_of_lt_of_le (Nat.lt_succ_self _) hn)
        have hcs2 : cs.length ≤ m := by
          simpa using Nat.lt_succ_iff.mp (Nat.lt_of_lt_of_le (Nat.lt_succ_self _) hm)
        split
        · have hd : (List.drop (pat.length - 1) cs).length ≤ cs.length := by
            simp [List.length_drop]
          exact congrArg (dollarSubst pat before (List.drop (pat.length - 1) cs) rep ++ ·)
            (ih m _ _ (Nat.le_trans hd hcs) (Nat.le_trans hd hcs2))
        · exact congrArg (c :: ·) (ih m _ cs hcs hcs2)

theorem replaceAllFrom_nil (pat rep before : List Char) :
    replaceAllFrom pat rep before [] = [] := rfl

theorem replaceAllFrom_cons (pat rep before : List Char) (c : Char) (cs : List Char) :
    replaceAllFrom pat rep before (c :: cs) =
      if pat.isPrefixOf (c :: cs) then
        dollarSubst pat before (List.drop (pat.length - 1) cs) rep ++
          replaceAllFrom pat rep (before ++ pat) (List.drop (pat.length - 1) cs)
      else
        c :: replaceAllFrom pat rep (before ++ [c]) cs := by
  show replaceAllAux pat rep (cs.length + 1) before (c :: cs) = _
  simp only [replaceAllAux]
  split
  · exact congrArg (dollarSubst pat before (List.drop (pat.length - 1) cs) rep ++ ·)
      (replaceAllAux_fuel pat rep _ _ _ _ (by simp [List.length_drop]) (Nat.le_refl _))
  · exact congrArg (c :: ·)
      (replaceAllAux_fuel pat rep _ _ _ _ (Nat.le_refl _) (Nat.le_refl _))

/-- Stepping over a character that cannot start a match. -/
theorem replaceAllFrom_cons_ne (p : Char) (ps rep before : List Char) (c : Char)
    (cs : List Char) (h : c ≠ p) :
    replaceAllFrom (p :: ps) rep before (c :: cs) =
      c :: replaceAllFrom (p :: ps) rep (before ++ [c]) cs := by
  rw [replaceAllFrom_cons]
  have hpre : (p :: ps).isPrefixOf (c :: cs) = false := by
    simp [List.isPrefixOf, Ne.symm h]
  simp [hpre]

/-- Stepping over a block of characters none of which can start a match. -/
theorem replaceAllFrom_append_skip (p : Char) (ps rep : List Char) :
    ∀ l before rest, p ∉ l →
      replaceAllFrom (p :: ps) rep before (l ++ rest) =
        l ++ replaceAllFrom (p :: ps) rep (before ++ l) rest := by
  intro l
  induction l with
  | nil => intro before rest _; simp
  | cons c cs ih =>
    intro before rest hmem
    have hc : c ≠ p := by
      intro hcp
      exact hmem (hcp ▸ List.mem_cons_self c cs)
    have hcs2 : p ∉ cs := fun hx => hmem (List.mem_cons_of_mem c hx)
    rw [List.cons_append,
      replaceAllFrom_cons_ne p ps rep before c (cs ++ rest) hc,
      ih (before ++ [c]) rest hcs2, List.cons_append, List.append_assoc]
    rfl

/-- A match at the current position is consumed, the dollar-expanded
replacement inserted, and scanning continues on the remainder. -/
theorem replaceAllFrom_append_match (p : Char) (ps rep before rest : List Char) :
    replaceAllFrom (p :: ps) rep before ((p :: ps) ++ rest) =
      dollarSubst (p :: ps) before rest rep ++
        replaceAllFrom (p :: ps) rep (before ++ (p :: ps)) rest := by
  rw [List.cons_append, replaceAllFrom_cons]
  have hpre : (p :: ps).isPrefixOf (p :: (ps ++ rest)) = true := by
    rw [List.isPrefixOf_iff_prefix]
    exact (List.prefix_append (p :: ps) rest).trans (by simp)
  simp only [hpre, if_true]
  have hdrop : List.drop ((p :: ps).length - 1) (ps ++ rest) = rest := by
    simp
  rw [hdrop]

/-- When the replacement text has no dollars a match inserts it
verbatim. -/
theorem replaceAllFrom_append_match_clean (p : Char) (ps rep before rest : List Char)
    (hrep : dollarChar ∉ rep) :
    replaceAllFrom (p :: ps) rep before ((p :: ps) ++ rest) =
      rep ++ replaceAllFrom (p :: ps) rep (before ++ (p :: ps)) rest := by
  rw [replaceAllFrom_append_match, dollarSubst_id _ _ _ rep hrep]

/-- The thirteen template tokens of the program: six EHR-terminology
tokens (resolveEhrTerms) and seven patient-profile tokens
(resolveTemplateVars).  The two groups form disjoint namespaces. -/
inductive TokName where
  | flowsheet | patientList | alertFlag | noteType | orderEntry | storyboard
  | chiefComplaint | diagnosis | labOrders | labResults | problemList
  | medicalHistory | antibiotics
  deriving DecidableEq, Fintype

/-- Name part of each token, without the surrounding braces. -/
def tokNameStr : TokName → String
  | .flowsheet => "flowsheet"
  | .patientList => "patientList"
  | .alertFlag => "alertFlag"
  | .noteType => "noteType"
  | .orderEntry => "orderEntry"
  | .storyboard => "storyboard"
  | .chiefComplaint => "chiefComplaint"
  | .diagnosis => "diagnosis"
  | .labOrders => "labOrders"
  | .labResults => "labResults"
  | .problemList => "problemList"
  | .medicalHistory => "medicalHistory"
  | .antibiotics => "antibiotics"

def tokName (t : TokName) : List Char := (tokNameStr t).toList

/-- Full token text as it appears in template strings: `\x7bname\x7d`. -/
def tokText (t : TokName) : List Char := '{' :: (tokName t ++ [ '}' ])

theorem tokName_no_openBrace : ∀ t : TokName, '{' ∉ tokName t := by decide

theorem tokName_no_closeBrace : ∀ t : TokName, '}' ∉ tokName t := by decide

theorem tokName_mismatch :
    ∀ t u : TokName, t ≠ u → (tokName t).isPrefixOf (tokName u) = false := by decide

/-- Two distinct brace-free, mutually non-prefix names, each followed by a
closing brace, can never line up: the first token text is not a prefix of
the second token text followed by anything. -/
theorem names_no_cross (n1 n2 : List Char) (h1 : '}' ∉ n1) (h2 : '}' ∉ n2)
    (hp1 : ¬ n1 <+: n2) (_hp2 : ¬ n2 <+: n1) :
    ∀ rest, ¬ (n1 ++ [ '}' ]) <+: (n2 ++ '}' :: rest) := by
  intro rest h
  rcases Nat.lt_trichotomy n1.length n2.length with hlt | heq | hgt
  · have htake : n1 ++ [ '}' ] = (n2 ++ '}' :: rest).take (n1.length + 1) := by
      have := List.prefix_iff_eq_take.mp h
      simpa using this
    have hle : n1.length + 1 ≤ n2.length := hlt
    rw [List.take_append_of_le_length hle] at htake
    have hmem : '}' ∈ n2.take (n1.length + 1) := by
      rw [← htake]; simp
    exact h2 (List.take_subset _ _ hmem)
  · have htake : n1 ++ [ '}' ] = (n2 ++ '}' :: rest).take (n1.length + 1) := by
      have := List.prefix_iff_eq_take.mp h
      simpa using this
    have : (n2 ++ '}' :: rest).take (n1.length + 1) = n2 ++ [ '}' ] := by
      rw [heq]
      rw [show n2.length + 1 = (n2 ++ [ '}' ]).length by simp]
      rw [show n2 ++ '}' :: rest = (n2 ++ [ '}' ]) ++ rest by simp]
      exact List.take_left _ _
    rw [this] at htake
    have hn : n1 = n2 :=
      (List.append_inj_left htake (by rw [heq])).symm ▸ rfl
    exact hp1 (hn ▸ List.prefix_refl n1)
  · have h2pre : (n2 ++ [ '}' ]) <+: (n2 ++ '}' :: rest) := by
      rw [show n2 ++ '}' :: rest = (n2 ++ [ '}' ]) ++ rest by simp]
      exact List.prefix_append _ _
    have hle : (n2 ++ [ '}' ]).length ≤ (n1 ++ [ '}' ]).length := by
      simp; omega
    have hpp : (n2 ++ [ '}' ]) <+: (n1 ++ [ '}' ]) :=
      List.prefix_of_prefix_length_le h2pre h hle
    have htake : n2 ++ [ '}' ] = (n1 ++ [ '}' ]).take (n2.length + 1) := by
      have := List.prefix_iff_eq_take.mp hpp
      simpa using this
    have hle2 : n2.length + 1 ≤ n1.length := hgt
    rw [List.take_append_of_le_length hle2] at htake
    have hmem : '}' ∈ n1.take (n2.length + 1) := by
      rw [← htake]; simp
    exact h1 (List.take_subset _ _ hmem)

/-- Distinct tokens never cross: the text of token `t` never begins at the
start of the text of a different token `u`, whatever follows. -/
theorem tok_no_cross (t u : TokName) (hne : t ≠ u) :
    ∀ rest, ¬ (tokText t) <+: (tokText u ++ rest) := by
  intro rest h
  have hp1 : ¬ tokName t <+: tokName u := by
    rw [← List.isPrefixOf_iff_prefix]
    simp [tokName_mismatch t u hne]
  have hp2 : ¬ tokName u <+: tokName t := by
    rw [← List.isPrefixOf_iff_prefix]
    simp [tokName_mismatch u t (Ne.symm hne)]
  have h2 : (tokName t ++ [ '}' ]) <+: (tokName u ++ '}' :: rest) := by
    have : tokText u ++ rest = '{' :: (tokName u ++ '}' :: rest) := by
      simp [tokText]
    rw [this, tokText] at h
    exact (List.cons_prefix_cons.mp h).2
  exact names_no_cross (tokName t) (tokName u)
    (tokName_no_closeBrace t) (tokName_no_closeBrace u) hp1 hp2 rest h2

/-- Replacement steps over the text of a different token unchanged. -/
theorem replaceAllFrom_tok_skip (t u : TokName) (hne : t ≠ u)
    (rep before rest : List Char) :
    replaceAllFrom (tokText t) rep before (tokText u ++ rest) =
      tokText u ++ replaceAllFrom (tokText t) rep (before ++ tokText u) rest := by
  have hstep : replaceAllFrom (tokText t) rep before
        ( '{' :: (tokName u ++ '}' :: rest)) =
      '{' :: replaceAllFrom (tokText t) rep (before ++ [ '{' ])
        (tokName u ++ '}' :: rest) := by
    rw [show tokText t = '{' :: (tokName t ++ [ '}' ]) from rfl]
    rw [replaceAllFrom_cons]
    have hnp : ( '{' :: (tokName t ++ [ '}' ])).isPrefixOf
        ( '{' :: (tokName u ++ '}' :: rest)) = false := by
      by_contra hcon
      have : (tokText t) <+: (tokText u ++ rest) := by
        rw [← List.isPrefixOf_iff_prefix]
        have : ( '{' :: (tokName t ++ [ '}' ])).isPrefixOf
            ( '{' :: (tokName u ++ '}' :: rest)) = true := by
          revert hcon
          cases ( '{' :: (tokName t ++ [ '}' ])).isPrefixOf
            ( '{' :: (tokName u ++ '}' :: rest)) <;> simp
        simpa [tokText] using this
      exact tok_no_cross t u hne rest this
    simp [hnp]
  have hskip : replaceAllFrom (tokText t) rep (before ++ [ '{' ])
        (tokName u ++ '}' :: rest) =
      (tokName u ++ [ '}' ]) ++ replaceAllFrom (tokText t) rep
        ((before ++ [ '{' ]) ++ (tokName u ++ [ '}' ])) rest := by
    have hmem : '{' ∉ tokName u ++ [ '}' ] := by
      simp [tokName_no_openBrace u]
    have := replaceAllFrom_append_skip '{' (tokName t ++ [ '}' ]) rep
      (tokName u ++ [ '}' ]) (before ++ [ '{' ]) rest hmem
    simpa [tokText] using this
  have hb : (before ++ [ '{' ]) ++ (tokName u ++ [ '}' ]) = before ++ tokText u := by
    rw [List.append_assoc]
    rfl
  calc replaceAllFrom (tokText t) rep before (tokText u ++ rest)
      = replaceAllFrom (tokText t) rep before
          ( '{' :: (tokName u ++ '}' :: rest)) := by
        simp [tokText]
    _ = '{' :: replaceAllFrom (tokText t) rep (before ++ [ '{' ])
          (tokName u ++ '}' :: rest) := hstep
    _ = '{' :: ((tokName u ++ [ '}' ]) ++ replaceAllFrom (tokText t) rep
          ((before ++ [ '{' ]) ++ (tokName u ++ [ '}' ])) rest) := by
        rw [hskip]
    _ = tokText u ++ replaceAllFrom (tokText t) rep (before ++ tokText u) rest := by
        rw [hb]
        simp [tokText]

/-- Replacement consumes the text of the matching token, inserting a
dollar-free replacement verbatim. -/
theorem replaceAllFrom_tok_match (t : TokName) (rep before rest : List Char)
    (hrep : dollarChar ∉ rep) :
    replaceAllFrom (tokText t) rep before (tokText t ++ rest) =
      rep ++ replaceAllFrom (tokText t) rep (before ++ tokText t) rest := by
  rw [show tokText t = '{' :: (tokName t ++ [ '}' ]) from rfl]
  exact replaceAllFrom_append_match_clean '{' (tokName t ++ [ '}' ]) rep before rest hrep

/-- One EHR vendor's terminology entry (testDefs.ehrTerminology values). -/
structure Terms where
  flowsheet : String
  patientList : String
  alertFlag : String
  noteType : String
  orderEntry : String
  storyboard : String
  deriving DecidableEq

/-- One verification step template tied to a flag state. -/
structure Criterion where
  role : Option String
  step : String
  deriving DecidableEq

/-- Per-flag test criteria (testDefs.flagTestCriteria values). -/
structure TestCriteria where
  whenEnabled : Option (List Criterion)
  whenDisabled : Option (List Criterion)
  deriving DecidableEq

/-- applicableProducts of a flag definition: the sentinel "all" or an
explicit list of product keys. -/
inductive AppProducts where
  | all
  | products (ps : List String)
  deriving DecidableEq

/-- A flag definition (flagData.flagDefinitions entries). -/
structure FlagDef where
  key : String
  name : String
  applicableProducts : AppProducts
  deriving DecidableEq

structure Labs where
  orders : Option (List String)
  results : Option String
  deriving DecidableEq

structure PatientProfile where
  age : String
  sex : String
  location : String
  chiefComplaint : Option String
  diagnosis : Option String
  labs : Option Labs
  problemList : Option String
  medicalHistory : Option String
  antibiotics : Option String
  deriving DecidableEq

structure ScenStep where
  role : Option String
  action : String
  expected : String
  deriving DecidableEq

/-- A test scenario (testDefs.scenarios entries); an absent requiredFlags
array behaves identically to an empty one in the source, so both are
modelled as the empty list. -/
structure Scenario where
  key : String
  name : String
  product : String
  description : String
  workflow : String
  patientProfile : Option PatientProfile
  requiredFlags : List String
  setupSteps : List ScenStep
  coreTestSteps : List ScenStep
  deriving DecidableEq

structure Customer where
  key : String
  name : String
  ehr : String
  products : List String
  deriving DecidableEq

/-- Per-product flag configuration block; a flag key absent from the list
is the "not configured" tri-state. -/
structure ProductConfig where
  flags : List (String × Bool)
  deriving DecidableEq

structure ProductInfo where
  key : String
  name : String
  deriving DecidableEq

abbrev CustomerConfig := List (String × ProductConfig)

/-- The feature-flags.json document. -/
structure FlagData where
  flagDefinitions : List (String × List FlagDef)
  configurations : List (String × CustomerConfig)
  products : List ProductInfo
  customers : List Customer
  deriving DecidableEq

/-- The test-definitions.json document. -/
structure TestDefs where
  scenarios : List Scenario
  flagTestCriteria : List (String × TestCriteria)
  ehrTerminology : List (String × Terms)
  roles : List (String × String)
  deriving DecidableEq

/-- JS string truthiness default (`v || d`): null, undefined and the
empty string all fall back to the default. -/
def jsOr (v : Option String) (d : String) : String :=
  match v with
  | none => d
  | some s => if s = "" then d else s

/-- Inner-quote doubling of csvEscape (`s.replace(/"/g, '""')`). -/
def dupQuotes : List Char → List Char
  | [] => []
  | c :: cs => if c = '"' then '"' :: '"' :: dupQuotes cs else c :: dupQuotes cs

/-- Field body of csvEscape: wrap in quotes, doubling inner quotes, when
the field contains a comma, a quote or a newline. -/
def csvEscapeL (s : List Char) : List Char :=
  if ',' ∈ s ∨ '"' ∈ s ∨ '\n' ∈ s then '"' :: (dupQuotes s ++ [ '"' ]) else s

/-- csvEscape from the source; none models a null/undefined value. -/
def csvEscape (v : Option String) : String :=
  match v with
  | none => ""
  | some s => String.mk (csvEscapeL s.toList)

/-- JS Array.prototype.join with a comma separator, at the character
level. -/
def joinCommaL : List (List Char) → List Char
  | [] => []
  | [v] => v
  | v :: vs => v ++ ',' :: joinCommaL vs

/-- csvRow from the source (values.map(csvEscape).join(",")). -/
def csvRow (vals : List (Option String)) : String :=
  String.mk (joinCommaL (vals.map (fun v => (csvEscape v).data)))

/-- Application of one token substitution (one chained `.replace` call). -/
def applySub (s : List Char) (p : TokName × List Char) : List Char :=
  replaceAll s (tokText p.1) p.2

/-- Sequential application of a chain of token substitutions. -/
def applySubs (subs : List (TokName × List Char)) (s : List Char) : List Char :=
  subs.foldl applySub s

/-- Default terminology record used to totalize getTerms; the source
would fail on a document with neither the requested vendor nor an Epic
entry, a case no claim touches. -/
def emptyTerms : Terms := ⟨"", "", "", "", "", ""⟩

/-- Vendor lookup with the source's fallback
(`testDefs.ehrTerminology[ehr] || testDefs.ehrTerminology["Epic"]`). -/
def getTerms (td : TestDefs) (ehr : String) : Terms :=
  ((td.ehrTerminology.lookup ehr).orElse (fun _ => td.ehrTerminology.lookup "Epic")).getD
    emptyTerms

/-- The six EHR substitutions, in source order. -/
def ehrSubsOf (t : Terms) : List (TokName × List Char) :=
  [(.flowsheet, t.flowsheet.toList), (.patientList, t.patientList.toList),
   (.alertFlag, t.alertFlag.toList), (.noteType, t.noteType.toList),
   (.orderEntry, t.orderEntry.toList), (.storyboard, t.storyboard.toList)]

/-- resolveEhrTerms from the source. -/
def resolveEhrTerms (td : TestDefs) (text : String) (ehr : String) : String :=
  String.mk (applySubs (ehrSubsOf (getTerms td ehr)) text.toList)

/-- roleLabel from the source (a falsy role key gives the "--"
placeholder; an unknown key renders as itself). -/
def roleLabel (td : TestDefs) (roleKey : Option String) : String :=
  match roleKey with
  | none => "--"
  | some k =>
    if k = "" then "--"
    else
      match td.roles.lookup k with
      | some label => label
      | none => k

def profileVal (p : Option PatientProfile) (f : PatientProfile → Option String) : String :=
  (p.bind f).getD ""

/-- The seven patient-profile substitutions, in source order;
labOrders renders the order list comma-and-space joined. -/
def profSubsOf (p : Option PatientProfile) : List (TokName × List Char) :=
  [(.chiefComplaint, (profileVal p (·.chiefComplaint)).toList),
   (.diagnosis, (profileVal p (·.diagnosis)).toList),
   (.labOrders,
     ((((p.bind (·.labs)).bind (·.orders)).map (String.intercalate ", ")).getD "").toList),
   (.labResults, ((((p.bind (·.labs)).bind (·.results))).getD "").toList),
   (.problemList, (profileVal p (·.problemList)).toList),
   (.medicalHistory, (profileVal p (·.medicalHistory)).toList),
   (.antibiotics, (profileVal p (·.antibiotics)).toList)]

/-- resolveTemplateVars from the source. -/
def resolveTemplateVars (text : String) (scen : Scenario) : String :=
  String.mk (applySubs (profSubsOf scen.patientProfile) text.toList)

/-- scenarioApplies from the source. -/
def scenarioApplies (s : Scenario) (c : Customer) (cfg : Option CustomerConfig) : Bool :=
  if ¬ c.products.contains s.product then false
  else if s.requiredFlags.isEmpty then true
  else
    match cfg.bind (fun cc => cc.lookup s.product) with
    | none => false
    | some pc => s.requiredFlags.all (fun fk => pc.flags.lookup fk == some true)

/-- One selected flag test (elements of the enabled/disabled buckets). -/
structure FlagTest where
  flag : FlagDef
  criteria : List Criterion
  category : String
  deriving DecidableEq

structure FlagTests where
  enabled : List FlagTest
  disabled : List FlagTest
  deriving DecidableEq

def flagApplicable (f : FlagDef) (productKey : String) : Bool :=
  match f.applicableProducts with
  | .all => true
  | .products ps => ps.contains productKey

/-- Loop body of getFlagTests for one flag: its contribution to the
enabled and disabled buckets (each empty or a singleton). -/
def flagSelect (td : TestDefs) (pc : ProductConfig) (productKey : String)
    (cat : String) (f : FlagDef) : List FlagTest × List FlagTest :=
  if ¬ flagApplicable f productKey then ([], [])
  else
    match td.flagTestCriteria.lookup f.key with
    | none => ([], [])
    | some tc =>
      match pc.flags.lookup f.key with
      | some true =>
        match tc.whenEnabled with
        | some cr => ([⟨f, cr, cat⟩], [])
        | none => ([], [])
      | some false =>
        match tc.whenDisabled with
        | some cr => ([], [⟨f, cr, cat⟩])
        | none => ([], [])
      | none => ([], [])

/-- Inner loop of getFlagTests over the flags of one category. -/
def catSelect (td : TestDefs) (pc : ProductConfig) (productKey : String)
    (cat : String) : List FlagDef → List FlagTest × List FlagTest
  | [] => ([], [])
  | f :: fs =>
    let hd := flagSelect td pc productKey cat f
    let tl := catSelect td pc productKey cat fs
    (hd.1 ++ tl.1, hd.2 ++ tl.2)

/-- Outer loop of getFlagTests over the flag catalog categories. -/
def defsSelect (td : TestDefs) (pc : ProductConfig) (productKey : String) :
    List (String × List FlagDef) → List FlagTest × List FlagTest
  | [] => ([], [])
  | (cat, fs) :: rest =>
    let hd := catSelect td pc productKey cat fs
    let tl := defsSelect td pc productKey rest
    (hd.1 ++ tl.1, hd.2 ++ tl.2)

/-- getFlagTests from the source (whose customer argument is unused in
its body and therefore not part of the embedding). -/
def getFlagTests (fd : FlagData) (td : TestDefs) (productKey : String)
    (cfg : Option CustomerConfig) : FlagTests :=
  match cfg.bind (fun cc => cc.lookup productKey) with
  | none => ⟨[], []⟩
  | some pc =>
    let p := defsSelect td pc productKey fd.flagDefinitions
    ⟨p.1, p.2⟩

/-- categoryLabel word capitalization (charAt(0).toUpperCase() + slice(1)). -/
def capitalizeWord (w : String) : String :=
  match w.toList with
  | [] => ""
  | c :: cs => String.mk (c.toUpper :: cs)

/-- categoryLabel from the source. -/
def categoryLabel (catKey : String) : String :=
  String.intercalate " " ((catKey.splitOn "_").map capitalizeWord)

/-- JS String.prototype.includes: substring containment. -/
def strIncludes (s sub : String) : Bool := decide (sub.toList <:+: s.toList)

/-- The relevance-gate category set built inline by generateTestPlan.
The source collects categories in a JS Set consumed only through
membership tests, so a list with possible duplicates is behaviorally
identical. -/
def relevantCategories (s : Scenario) : List String :=
  (if strIncludes s.key "sepsis_ed" || strIncludes s.key "septic_shock" then
    ["assessment_writeback", "documentation", "regulatory"] ++
      (if s.requiredFlags.contains "bundle_tracking" then ["bundle_manager"] else [])
  else []) ++
  (if s.key == "no_sepsis_no_infection" then
    ["assessment_writeback", "contributing_factors"] else []) ++
  (if s.key == "abx_workflow" then ["suppression"] else []) ++
  (if s.key == "comfort_care_suppression" then ["suppression"] else []) ++
  (if s.key == "septic_shock_rnf_to_icu" then
    ["assessment_writeback", "contributing_factors"] else [])

/-- One emitted row; the source pushes 9-element arrays, here a structure
with one field per column (the last three are always empty). -/
structure Row where
  stepCol : String
  sectionCol : String
  ident : String
  user : String
  desc : String
  expected : String
  result : String
  passFail : String
  notes : String
  deriving DecidableEq

def rowCells (r : Row) : List (Option String) :=
  [some r.stepCol, some r.sectionCol, some r.ident, some r.user, some r.desc,
   some r.expected, some r.result, some r.passFail, some r.notes]

def csvRowOf (r : Row) : String := csvRow (rowCells r)

def headerRow : Row :=
  ⟨"Test Step #", "Section", "Scenario / Flag", "User", "Test Step Description",
   "Expected Result", "Test Result", "Pass/Fail", "Description of failure/issues"⟩

def scenarioHeaderRow (s : Scenario) : Row :=
  ⟨"", "SCENARIO", "=== " ++ s.name ++ " ===", "", s.description,
   "Workflow: " ++ s.workflow, "", "", ""⟩

def patientSetupRow (s : Scenario) (p : PatientProfile) : Row :=
  ⟨"", "PATIENT SETUP", s.name, "",
   "Test Patient: Age " ++ p.age ++ ", " ++ p.sex ++ ", " ++ p.location ++
     ". Chief Complaint: " ++ jsOr p.chiefComplaint "N/A", "", "", "", ""⟩

def stepActionRow (td : TestDefs) (ehr : String) (sectionLabel : String)
    (scen : Scenario) (st : ScenStep) (n : Nat) : Row :=
  ⟨toString n, sectionLabel, scen.name, roleLabel td st.role,
   resolveEhrTerms td (resolveTemplateVars st.action scen) ehr,
   resolveEhrTerms td (resolveTemplateVars st.expected scen) ehr, "", "", ""⟩

/-- Setup / core step loops: one numbered row per step, returning the rows
and the final step counter. -/
def stepActionRows (td : TestDefs) (ehr : String) (sectionLabel : String)
    (scen : Scenario) : List ScenStep → Nat → List Row × Nat
  | [], n => ([], n)
  | st :: rest, n =>
    let r := stepActionRow td ehr sectionLabel scen st (n + 1)
    let t := stepActionRows td ehr sectionLabel scen rest (n + 1)
    (r :: t.1, t.2)

def fvHeaderRow (s : Scenario) : Row :=
  ⟨"", "FLAG VERIFICATION", s.name, "",
   "--- Feature-specific verification steps (auto-generated from enabled flags) ---",
   "", "", "", ""⟩

def critRow (td : TestDefs) (ehr : String) (sectionLabel expectedLit : String)
    (ft : FlagTest) (cr : Criterion) (n : Nat) : Row :=
  ⟨toString n, sectionLabel, ft.flag.name ++ " [" ++ ft.flag.key ++ "]",
   roleLabel td cr.role, resolveEhrTerms td cr.step ehr, expectedLit, "", "", ""⟩

/-- Inner criterion loop shared by flag-verification and absence rows. -/
def critRows (td : TestDefs) (ehr : String) (sectionLabel expectedLit : String)
    (ft : FlagTest) : List Criterion → Nat → List Row × Nat
  | [], n => ([], n)
  | cr :: rest, n =>
    let r := critRow td ehr sectionLabel expectedLit ft cr (n + 1)
    let t := critRows td ehr sectionLabel expectedLit ft rest (n + 1)
    (r :: t.1, t.2)

/-- Outer flag-test loop of the scenario Flag Verification section. -/
def flagTestsRows (td : TestDefs) (ehr : String) (sectionLabel expectedLit : String) :
    List FlagTest → Nat → List Row × Nat
  | [], n => ([], n)
  | ft :: rest, n =>
    let hd := critRows td ehr sectionLabel expectedLit ft ft.criteria n
    let tl := flagTestsRows td ehr sectionLabel expectedLit rest hd.2
    (hd.1 ++ tl.1, tl.2)

/-- The enabled flag tests filtered to the scenario's relevant categories. -/
def scenarioFlagTests (fd : FlagData) (td : TestDefs) (cfg : Option CustomerConfig)
    (scen : Scenario) : List FlagTest :=
  ((getFlagTests fd td scen.product cfg).enabled).filter
    (fun f => (relevantCategories scen).contains f.category)

/-- One applicable scenario's block of rows, threading the running step
counter exactly as the source does: the counter is also incremented
before the scenario-header row and before the patient-setup row, although
those rows display an empty step cell. -/
def scenarioBlock (fd : FlagData) (td : TestDefs) (ehr : String)
    (cfg : Option CustomerConfig) (scen : Scenario) (n0 : Nat) : List Row × Nat :=
  let n1 := n0 + 1
  let patRows : List Row :=
    match scen.patientProfile with
    | some p => [patientSetupRow scen p]
    | none => []
  let n2 : Nat :=
    match scen.patientProfile with
    | some _ => n1 + 1
    | none => n1
  let setup := stepActionRows td ehr "Setup" scen scen.setupSteps n2
  let core := stepActionRows td ehr "Bayesian UI Test" scen scen.coreTestSteps setup.2
  let sft := scenarioFlagTests fd td cfg scen
  let fvBody := flagTestsRows td ehr "Flag Verification" "VERIFY" sft core.2
  let fvRows : List Row := if sft.isEmpty then [] else fvHeaderRow scen :: fvBody.1
  let n5 : Nat := if sft.isEmpty then core.2 else fvBody.2
  (scenarioHeaderRow scen :: (patRows ++ setup.1 ++ core.1 ++ fvRows), n5)

/-- Part 1 loop over the scenario library. -/
def part1Rows (fd : FlagData) (td : TestDefs) (c : Customer)
    (cfg : Option CustomerConfig) : List Scenario → Nat → List Row × Nat
  | [], n => ([], n)
  | s :: rest, n =>
    if scenarioApplies s c cfg then
      let blk := scenarioBlock fd td c.ehr cfg s n
      let tl := part1Rows fd td c cfg rest blk.2
      (blk.1 ++ tl.1, tl.2)
    else part1Rows fd td c cfg rest n

def absenceHeaderRow (productName : String) : Row :=
  ⟨"", "ABSENCE TESTS", "=== " ++ productName ++ ": Disabled Flag Verification ===",
   "", "Verify that disabled features do NOT appear in the application", "", "", "", ""⟩

def catHeaderRow (cat : String) : Row :=
  ⟨"", "Absence Test", "--- " ++ categoryLabel cat ++ " ---", "", "", "", "", "", ""⟩

/-- Inner Part 2 loop over one product's disabled flag tests, with the
source's currentCategory state deciding category sub-header rows. -/
def absenceRowsGo (td : TestDefs) (ehr : String) :
    Option String → List FlagTest → Nat → List Row × Nat
  | _, [], n => ([], n)
  | cur, ft :: rest, n =>
    let hdr : List Row :=
      if cur ≠ some ft.category then [catHeaderRow ft.category] else []
    let body := critRows td ehr "Absence Test" "VERIFY ABSENT" ft ft.criteria n
    let tl := absenceRowsGo td ehr (some ft.category) rest body.2
    (hdr ++ body.1 ++ tl.1, tl.2)

/-- Part 2 contribution of one owned product. -/
def part2Product (fd : FlagData) (td : TestDefs) (ehr : String)
    (cfg : Option CustomerConfig) (pk : String) (n : Nat) : List Row × Nat :=
  let disabled := (getFlagTests fd td pk cfg).disabled
  if disabled.isEmpty then ([], n)
  else
    let productName := jsOr ((fd.products.find? (fun p => p.key == pk)).map (·.name)) pk
    let body := absenceRowsGo td ehr none disabled n
    (absenceHeaderRow productName :: body.1, body.2)

/-- Part 2 loop over the customer's products, in the order of the
customer's own products list. -/
def part2Rows (fd : FlagData) (td : TestDefs) (ehr : String)
    (cfg : Option CustomerConfig) : List String → Nat → List Row × Nat
  | [], n => ([], n)
  | pk :: rest, n =>
    let hd := part2Product fd td ehr cfg pk n
    let tl := part2Rows fd td ehr cfg rest hd.2
    (hd.1 ++ tl.1, tl.2)

/-- generateTestPlan from the source, at the structured row level.  The
source serializes each row with csvRow as it is pushed; the embedding
keeps the structured rows and composes the serialization in
generateTestPlan below, which is the same by compositionality of map. -/
def generateRows (fd : FlagData) (td : TestDefs) (c : Customer) : List Row :=
  let cfg := fd.configurations.lookup c.key
  let p1 := part1Rows fd td c cfg td.scenarios 0
  let p2 := part2Rows fd td c.ehr cfg c.products p1.2
  headerRow :: (p1.1 ++ p2.1)

/-- The final CSV text of generateTestPlan (rows joined by newlines). -/
def generateTestPlan (fd : FlagData) (td : TestDefs) (c : Customer) : String :=
  String.intercalate "\n" ((generateRows fd td c).map csvRowOf)

/-! Concrete fixtures, shaped like the hand-curated data documents, used
by witnesses and counterexamples. -/

def exTerms : Terms :=
  ⟨"Flowsheet", "Patient List", "BPA", "ED Notes", "Order Entry", "Storyboard"⟩

def exTermsCerner : Terms :=
  ⟨"iView", "Care Compass", "Discern Alert", "PowerNote", "PowerOrders", "Banner"⟩

def exFlagA : FlagDef := ⟨"nurse_writeback_flowsheet", "Nurse Writeback", .all⟩

def exFlagB : FlagDef := ⟨"bundle_tracking", "Bundle Tracking", .products ["sepsis"]⟩

def exFlagC : FlagDef := ⟨"code_status_suppression", "Code Status Suppression", .all⟩

def exFlagDefs : List (String × List FlagDef) :=
  [("assessment_writeback", [exFlagA]), ("bundle_manager", [exFlagB]),
   ("suppression", [exFlagC])]

def exCriteria : List (String × TestCriteria) :=
  [("nurse_writeback_flowsheet",
    ⟨some [⟨some "rn", "Check \x7bflowsheet\x7d for writeback"⟩],
     some [⟨some "rn", "Verify no \x7bflowsheet\x7d writeback"⟩]⟩),
   ("bundle_tracking", ⟨some [⟨none, "Open bundle view"⟩], some [⟨none, "No bundle view"⟩]⟩),
   ("code_status_suppression", ⟨none, some [⟨some "md", "No suppression banner"⟩]⟩)]

def exProfile : PatientProfile :=
  ⟨"65", "M", "ED", some "Fever", some "Sepsis",
   some ⟨some ["Lactate", "Blood Cultures"], some "Lactate 4.1"⟩,
   some "Sepsis", some "HTN", some "Zosyn"⟩

def exScenario1 : Scenario :=
  ⟨"sepsis_ed_full", "Sepsis ED Full Flow", "sepsis", "End to end flow", "ED",
   some exProfile, ["bundle_tracking"],
   [⟨some "rn", "Admit patient with \x7bchiefComplaint\x7d",
     "Patient visible in \x7bpatientList\x7d"⟩],
   [⟨some "md", "Open \x7bflowsheet\x7d", "Alert \x7balertFlag\x7d fires"⟩]⟩

def exScenario2 : Scenario :=
  ⟨"med_rec", "Med Reconciliation", "meds", "Medication review", "Inpatient",
   none, [], [⟨none, "Step A", "Result A"⟩], []⟩

def exConfig : CustomerConfig :=
  [("sepsis", ⟨[("nurse_writeback_flowsheet", true), ("bundle_tracking", true),
                ("code_status_suppression", true)]⟩),
   ("meds", ⟨[("nurse_writeback_flowsheet", false)]⟩)]

def exCustomer : Customer := ⟨"acme_health", "Acme Health", "Epic", ["sepsis", "meds"]⟩

def exCustomerCerner : Customer := ⟨"acme_two", "Acme Two", "Cerner", ["sepsis", "meds"]⟩

def exFlagData : FlagData :=
  ⟨exFlagDefs, [("acme_health", exConfig), ("acme_two", exConfig)],
   [⟨"sepsis", "Sepsis Product"⟩, ⟨"meds", "Meds Product"⟩],
   [exCustomer, exCustomerCerner]⟩

def exTestDefs : TestDefs :=
  ⟨[exScenario1, exScenario2], exCriteria,
   [("Epic", exTerms), ("Cerner", exTermsCerner)],
   [("rn", "Nurse"), ("md", "Provider")]⟩

/-- C3: scenarioApplies returns true exactly when the customer owns the
scenario's product and, whenever the scenario has required flags, the
configuration has a block for the scenario's product in which every
required flag is configured exactly true (absent and false both fail). -/
theorem claim_C3 (s : Scenario) (c : Customer) (cfg : Option CustomerConfig) :
    scenarioApplies s c cfg = true ↔
      s.product ∈ c.products ∧
        (s.requiredFlags ≠ [] →
          ∃ pc, cfg.bind (fun cc => cc.lookup s.product) = some pc ∧
            ∀ fk ∈ s.requiredFlags, pc.flags.lookup fk = some true) := by
  have hcont : (c.products.contains s.product = true) ↔ s.product ∈ c.products :=
    List.elem_iff
  unfold scenarioApplies
  split_ifs with h1 h2
  · have hempty : s.requiredFlags = [] := List.isEmpty_iff.mp h2
    constructor
    · intro _
      exact ⟨hcont.mp h1, fun hne => absurd hempty hne⟩
    · intro _; rfl
  · have hne : s.requiredFlags ≠ [] := fun hx => h2 (by simp [hx])
    cases hbind : cfg.bind (fun cc => cc.lookup s.product) with
    | none =>
      constructor
      · intro h; simp at h
      · rintro ⟨-, himp⟩
        rcases himp hne with ⟨pc, hpc, -⟩
        exact Option.noConfusion hpc
    | some pc =>
      constructor
      · intro h
        refine ⟨hcont.mp h1, fun _ => ⟨pc, rfl, ?_⟩⟩
        intro fk hfk
        have := List.all_eq_true.mp h fk hfk
        simpa using this
      · rintro ⟨-, himp⟩
        rcases himp hne with ⟨pc2, hpc2, hall⟩
        cases hpc2
        exact List.all_eq_true.mpr (fun fk hfk => by simpa using hall fk hfk)
  · constructor
    · intro h; simp at h
    · intro h; exact absurd (hcont.mpr h.1) h1

/-- Witness for C3 at a concrete scenario with a non-empty requiredFlags
list that is satisfied by the configuration. -/
theorem claim_C3_witness :
    exScenario1.product ∈ exCustomer.products ∧
      (exScenario1.requiredFlags ≠ [] →
        ∃ pc, (some exConfig).bind (fun cc => cc.lookup exScenario1.product) = some pc ∧
          ∀ fk ∈ exScenario1.requiredFlags, pc.flags.lookup fk = some true) :=
  (claim_C3 exScenario1 exCustomer (some exConfig)).mp (by decide)

/-- The flag catalog flattened in category-then-definition order. -/
def flagCatalogFlat (fd : FlagData) : List (String × FlagDef) :=
  fd.flagDefinitions.flatMap (fun p => p.2.map (fun f => (p.1, f)))

/-- The enabled-bucket selection rule of the claim, per catalog entry. -/
def enabledSelect (td : TestDefs) (pc : ProductConfig) (pk : String)
    (p : String × FlagDef) : Option FlagTest :=
  if flagApplicable p.2 pk then
    match td.flagTestCriteria.lookup p.2.key with
    | none => none
    | some tc =>
      if pc.flags.lookup p.2.key = some true then
        tc.whenEnabled.map (fun cr => ⟨p.2, cr, p.1⟩)
      else none
  else none

/-- The disabled-bucket selection rule of the claim, per catalog entry. -/
def disabledSelect (td : TestDefs) (pc : ProductConfig) (pk : String)
    (p : String × FlagDef) : Option FlagTest :=
  if flagApplicable p.2 pk then
    match td.flagTestCriteria.lookup p.2.key with
    | none => none
    | some tc =>
      if pc.flags.lookup p.2.key = some false then
        tc.whenDisabled.map (fun cr => ⟨p.2, cr, p.1⟩)
      else none
  else none

theorem flagSelect_fst_eq (td : TestDefs) (pc : ProductConfig) (pk cat : String)
    (f : FlagDef) :
    (flagSelect td pc pk cat f).1 = (enabledSelect td pc pk (cat, f)).toList := by
  unfold flagSelect enabledSelect
  by_cases ha : flagApplicable f pk
  · simp only [ha, not_true_eq_false, if_false, if_true]
    cases htc : td.flagTestCriteria.lookup f.key with
    | none => rfl
    | some tc =>
      cases hv : pc.flags.lookup f.key with
      | none => simp [hv]
      | some b =>
        cases b with
        | true => cases hwe : tc.whenEnabled <;> simp [hv, hwe]
        | false => cases hwd : tc.whenDisabled <;> simp [hv, hwd]
  · simp [ha]

theorem flagSelect_snd_eq (td : TestDefs) (pc : ProductConfig) (pk cat : String)
    (f : FlagDef) :
    (flagSelect td pc pk cat f).2 = (disabledSelect td pc pk (cat, f)).toList := by
  unfold flagSelect disabledSelect
  by_cases ha : flagApplicable f pk
  · simp only [ha, not_true_eq_false, if_false, if_true]
    cases htc : td.flagTestCriteria.lookup f.key with
    | none => rfl
    | some tc =>
      cases hv : pc.flags.lookup f.key with
      | none => simp [hv]
      | some b =>
        cases b with
        | true => cases hwe : tc.whenEnabled <;> simp [hv, hwe]
        | false => cases hwd : tc.whenDisabled <;> simp [hv, hwd]
  · simp [ha]

theorem catSelect_eq (td : TestDefs) (pc : ProductConfig) (pk cat : String) :
    ∀ fs : List FlagDef,
      catSelect td pc pk cat fs =
        ((fs.map (fun f => (cat, f))).filterMap (enabledSelect td pc pk),
         (fs.map (fun f => (cat, f))).filterMap (disabledSelect td pc pk)) := by
  intro fs
  induction fs with
  | nil => rfl
  | cons f rest ih =>
    simp only [catSelect, ih, List.map_cons, List.filterMap_cons]
    rw [flagSelect_fst_eq, flagSelect_snd_eq]
    cases he : enabledSelect td pc pk (cat, f) <;>
      cases hd : disabledSelect td pc pk (cat, f) <;>
      simp [he, hd]

theorem defsSelect_eq (td : TestDefs) (pc : ProductConfig) (pk : String) :
    ∀ defs : List (String × List FlagDef),
      defsSelect td pc pk defs =
        ((defs.flatMap (fun p => p.2.map (fun f => (p.1, f)))).filterMap (enabledSelect td pc pk),
         (defs.flatMap (fun p => p.2.map (fun f => (p.1, f)))).filterMap
           (disabledSelect td pc pk)) := by
  intro defs
  induction defs with
  | nil => rfl
  | cons p rest ih =>
    cases p with
    | mk cat fs =>
      simp only [defsSelect, ih, catSelect_eq, List.flatMap_cons, List.filterMap_append]

/-- C4: getFlagTests walks the flattened catalog in
category-then-definition order; a flag contributes to the enabled bucket
exactly when it is applicable to the product, has a criteria entry, is
configured exactly true and has a whenEnabled list, and dually for the
disabled bucket; a flag whose value is absent, or whose matching-side
criteria list is missing, contributes to neither bucket. -/
theorem claim_C4 (fd : FlagData) (td : TestDefs) (pk : String)
    (cfg : Option CustomerConfig) (pc : ProductConfig)
    (h : cfg.bind (fun cc => cc.lookup pk) = some pc) :
    (getFlagTests fd td pk cfg).enabled =
        (flagCatalogFlat fd).filterMap (enabledSelect td pc pk) ∧
      (getFlagTests fd td pk cfg).disabled =
        (flagCatalogFlat fd).filterMap (disabledSelect td pc pk) ∧
      (∀ cat f tc, td.flagTestCriteria.lookup f.key = some tc →
        tc.whenDisabled = none → pc.flags.lookup f.key = some false →
        flagSelect td pc pk cat f = ([], [])) ∧
      (∀ cat f tc, td.flagTestCriteria.lookup f.key = some tc →
        tc.whenEnabled = none → pc.flags.lookup f.key = some true →
        flagSelect td pc pk cat f = ([], [])) ∧
      (∀ cat f, pc.flags.lookup f.key = none →
        flagSelect td pc pk cat f = ([], [])) := by
  refine ⟨?_, ?_, ?_, ?_, ?_⟩
  · unfold getFlagTests
    rw [h]
    simp [defsSelect_eq, flagCatalogFlat]
  · unfold getFlagTests
    rw [h]
    simp [defsSelect_eq, flagCatalogFlat]
  · intro cat f tc htc hwd hv
    unfold flagSelect
    by_cases ha : flagApplicable f pk <;>
      simp [ha, htc, hv, hwd]
  · intro cat f tc htc hwe hv
    unfold flagSelect
    by_cases ha : flagApplicable f pk <;>
      simp [ha, htc, hv, hwe]
  · intro cat f hv
    unfold flagSelect
    by_cases ha : flagApplicable f pk <;>
      cases htc : td.flagTestCriteria.lookup f.key <;>
      simp [ha, htc, hv]

def exPcSepsis : ProductConfig :=
  ⟨[("nurse_writeback_flowsheet", true), ("bundle_tracking", true),
    ("code_status_suppression", true)]⟩

/-- Witness for C4: the sepsis product block of the fixture configuration.
Note that code_status_suppression is configured true but has only a
whenDisabled criteria list, so it lands in neither bucket. -/
theorem claim_C4_witness :
    (getFlagTests exFlagData exTestDefs "sepsis" (some exConfig)).enabled =
      (flagCatalogFlat exFlagData).filterMap (enabledSelect exTestDefs exPcSepsis "sepsis") :=
  (claim_C4 exFlagData exTestDefs "sepsis" (some exConfig) exPcSepsis (by decide)).1

/-- Membership helper for the relevance-gate characterization. -/
theorem mem_ite_nil (p : Prop) [Decidable p] (a : String) (l : List String) :
    (a ∈ if p then l else []) ↔ p ∧ a ∈ l := by
  split_ifs with h <;> simp [h]

/-- A scenario matches some rule of the relevance dispatch table. -/
def gateMatches (s : Scenario) : Prop :=
  strIncludes s.key "sepsis_ed" = true ∨ strIncludes s.key "septic_shock" = true ∨
    s.key = "no_sepsis_no_infection" ∨ s.key = "abx_workflow" ∨
    s.key = "comfort_care_suppression" ∨ s.key = "septic_shock_rnf_to_icu"

theorem scenarioFlagTests_nil (fd : FlagData) (td : TestDefs)
    (cfg : Option CustomerConfig) (s : Scenario) (h : relevantCategories s = []) :
    scenarioFlagTests fd td cfg s = [] := by
  unfold scenarioFlagTests
  rw [h]
  exact List.filter_eq_nil_iff.mpr (fun a _ => by simp)

theorem stepActionRows_sectionCol (td : TestDefs) (ehr lbl : String) (scen : Scenario) :
    ∀ steps n r, r ∈ (stepActionRows td ehr lbl scen steps n).1 → r.sectionCol = lbl := by
  intro steps
  induction steps with
  | nil => intro n r hr; simp [stepActionRows] at hr
  | cons st rest ih =>
    intro n r hr
    simp only [stepActionRows, List.mem_cons] at hr
    rcases hr with h | h
    · subst h; rfl
    · exact ih (n + 1) r h

theorem scenarioHeaderRow_sectionCol (s : Scenario) :
    (scenarioHeaderRow s).sectionCol = "SCENARIO" := rfl

theorem patientSetupRow_sectionCol (s : Scenario) (p : PatientProfile) :
    (patientSetupRow s p).sectionCol = "PATIENT SETUP" := rfl

set_option maxHeartbeats 1000000 in
/-- C2: the relevant flag categories of a scenario are exactly those given
by the dispatch rules (the sepsis_ed / septic_shock substring family with
its conditional bundle_manager entry, and the four individually named
keys), and a scenario matching no rule gets the empty category set and a
block with no Flag Verification section. -/
theorem claim_C2 (s : Scenario) :
    (∀ cat, cat ∈ relevantCategories s ↔
      (((strIncludes s.key "sepsis_ed" = true ∨ strIncludes s.key "septic_shock" = true) ∧
        (cat = "assessment_writeback" ∨ cat = "documentation" ∨ cat = "regulatory" ∨
          (cat = "bundle_manager" ∧ "bundle_tracking" ∈ s.requiredFlags))) ∨
      ((s.key = "no_sepsis_no_infection" ∨ s.key = "septic_shock_rnf_to_icu") ∧
        (cat = "assessment_writeback" ∨ cat = "contributing_factors")) ∨
      ((s.key = "abx_workflow" ∨ s.key = "comfort_care_suppression") ∧
        cat = "suppression"))) ∧
    (¬ gateMatches s →
      relevantCategories s = [] ∧
        ∀ fd td ehr cfg n, ∀ r ∈ (scenarioBlock fd td ehr cfg s n).1,
          r.sectionCol ≠ "FLAG VERIFICATION" ∧ r.sectionCol ≠ "Flag Verification") := by
  constructor
  · intro cat
    simp only [relevantCategories, List.mem_append, mem_ite_nil, Bool.or_eq_true,
      beq_iff_eq, List.mem_cons, List.mem_singleton, List.not_mem_nil,
      List.elem_iff]
    constructor
    · intro h; tauto
    · intro h; tauto
  · intro hno
    have h1 : strIncludes s.key "sepsis_ed" = false := by
      cases h : strIncludes s.key "sepsis_ed"
      · rfl
      · exact absurd (Or.inl h) hno
    have h2 : strIncludes s.key "septic_shock" = false := by
      cases h : strIncludes s.key "septic_shock"
      · rfl
      · exact absurd (Or.inr (Or.inl h)) hno
    have h3 : s.key ≠ "no_sepsis_no_infection" :=
      fun h => hno (Or.inr (Or.inr (Or.inl h)))
    have h4 : s.key ≠ "abx_workflow" :=
      fun h => hno (Or.inr (Or.inr (Or.inr (Or.inl h))))
    have h5 : s.key ≠ "comfort_care_suppression" :=
      fun h => hno (Or.inr (Or.inr (Or.inr (Or.inr (Or.inl h)))))
    have h6 : s.key ≠ "septic_shock_rnf_to_icu" :=
      fun h => hno (Or.inr (Or.inr (Or.inr (Or.inr (Or.inr h)))))
    have hrc : relevantCategories s = [] := by
      unfold relevantCategories
      rw [h1, h2]
      simp [h3, h4, h5, h6]
    refine ⟨hrc, ?_⟩
    intro fd td ehr cfg n r hr
    have hsft : scenarioFlagTests fd td cfg s = [] :=
      scenarioFlagTests_nil fd td cfg s hrc
    simp only [scenarioBlock] at hr
    rw [hsft] at hr
    simp only [List.isEmpty_nil, if_true, List.append_nil] at hr
    cases hp : s.patientProfile with
    | none =>
      rw [hp] at hr
      simp only [List.nil_append, List.mem_cons, List.mem_append,
        List.not_mem_nil, or_false, false_or] at hr
      rcases hr with hh | hh | hh
      · subst hh
        rw [scenarioHeaderRow_sectionCol]
        exact ⟨by decide, by decide⟩
      · rw [stepActionRows_sectionCol td ehr "Setup" s _ _ r hh]
        exact ⟨by decide, by decide⟩
      · rw [stepActionRows_sectionCol td ehr "Bayesian UI Test" s _ _ r hh]
        exact ⟨by decide, by decide⟩
    | some p =>
      rw [hp] at hr
      simp only [List.mem_cons, List.mem_append, List.mem_singleton,
        List.not_mem_nil, or_false, false_or] at hr
      rcases hr with hh | ((hh | hh) | hh)
      · subst hh
        rw [scenarioHeaderRow_sectionCol]
        exact ⟨by decide, by decide⟩
      · subst hh
        rw [patientSetupRow_sectionCol]
        exact ⟨by decide, by decide⟩
      · rw [stepActionRows_sectionCol td ehr "Setup" s _ _ r hh]
        exact ⟨by decide, by decide⟩
      · rw [stepActionRows_sectionCol td ehr "Bayesian UI Test" s _ _ r hh]
        exact ⟨by decide, by decide⟩

/-- Witness for C2 at a concrete scenario matching no dispatch rule. -/
theorem claim_C2_witness :
    relevantCategories exScenario2 = [] ∧
      ∀ r ∈ (scenarioBlock exFlagData exTestDefs "Epic" (some exConfig) exScenario2 0).1,
        r.sectionCol ≠ "FLAG VERIFICATION" ∧ r.sectionCol ≠ "Flag Verification" := by
  have h := (claim_C2 exScenario2).2 (by unfold gateMatches; decide)
  exact ⟨h.1, fun r hr => h.2 exFlagData exTestDefs "Epic" (some exConfig) 0 r hr⟩

/-! C1 fixtures: one applicable scenario with no patient profile and two
setup steps, for a customer owning its product. -/

def c1Scenario : Scenario :=
  ⟨"basic", "Basic", "p1", "d", "w", none, [],
   [⟨none, "A", "B"⟩, ⟨none, "C", "D"⟩], []⟩

def c1Customer : Customer := ⟨"cust1", "Cust", "Epic", ["p1"]⟩

def c1Fd : FlagData := ⟨[], [], [], [c1Customer]⟩

def c1Td : TestDefs := ⟨[c1Scenario], [], [("Epic", exTerms)], []⟩

/-- C1 is a code bug: the source increments the running step counter when
it emits the scenario-header row (and the patient-setup row), even though
those rows display an empty step cell.  Consequently the first displayed
step number of this two-step plan is 2, not 1: the displayed numbers are
["", "2", "3"] over the scenario rows instead of the claimed gap-free
["", "1", "2"]. -/
theorem claim_C1_code_bug :
    (generateRows c1Fd c1Td c1Customer).map Row.stepCol =
        ["Test Step #", "", "2", "3"] ∧
      ["Test Step #", "", "2", "3"] ≠ ["Test Step #", "", "1", "2"] := by
  decide

/-- Parser mode of the delimited-text reader: inside an unquoted field,
inside a quoted field, or just after a quote character seen inside a
quoted field. -/
inductive CsvMode where
  | unq | quo | aft
  deriving DecidableEq

/-- Prepend a character to the first field of a parse result. -/
def consField (c : Char) : List (List Char) → List (List Char)
  | [] => [[c]]
  | f :: fs => (c :: f) :: fs

/-- Modelled from the spec: the record-level state machine of a standard
delimited-text reader (the spec's "standard delimited-text reader" is not
part of the repository).  Fields are separated by commas; a field opening
with a quote is read to the closing quote, a doubled quote inside it
decoding to one literal quote: a quote inside a quoted field moves to the
after-quote mode, where a second quote emits one literal quote and
returns to the quoted field, while a comma closes the field. -/
def parseRowGo : CsvMode → List Char → List (List Char)
  | _, [] => [[]]
  | .unq, c :: rest =>
    if c = ',' then [] :: parseRowGo .unq rest
    else if c = '"' then parseRowGo .quo rest
    else consField c (parseRowGo .unq rest)
  | .quo, c :: rest =>
    if c = '"' then parseRowGo .aft rest
    else consField c (parseRowGo .quo rest)
  | .aft, c :: rest =>
    if c = '"' then consField '"' (parseRowGo .quo rest)
    else if c = ',' then [] :: parseRowGo .unq rest
    else consField c (parseRowGo .aft rest)

/-- Modelled from the spec: parse one written record back into its
fields. -/
def parseRow (s : String) : List String :=
  (parseRowGo .unq s.data).map String.mk

/-- Prepend a block of characters to the first field of a parse result. -/
def prependFirst (f : List Char) : List (List Char) → List (List Char)
  | [] => [f]
  | g :: gs => (f ++ g) :: gs

theorem consField_ne_nil (c : Char) (l : List (List Char)) : consField c l ≠ [] := by
  cases l <;> simp [consField]

theorem parseRowGo_ne_nil : ∀ (s : List Char) (m : CsvMode), parseRowGo m s ≠ [] := by
  intro s
  induction s with
  | nil => intro m; cases m <;> simp [parseRowGo]
  | cons c rest ih =>
    intro m
    cases m <;> simp only [parseRowGo] <;> split_ifs <;>
      first
        | exact ih _
        | exact consField_ne_nil _ _
        | simp

theorem prependFirst_nil (l : List (List Char)) (h : l ≠ []) :
    prependFirst [] l = l := by
  cases l with
  | nil => exact absurd rfl h
  | cons g gs => simp [prependFirst]

theorem consField_prependFirst (c : Char) (f : List Char) (l : List (List Char)) :
    consField c (prependFirst f l) = prependFirst (c :: f) l := by
  cases l <;> rfl

/-- A block of plain characters (no comma, no quote) extends the current
unquoted field. -/
theorem parseRowGo_unq_clean (f : List Char) (h : ∀ c ∈ f, c ≠ ',' ∧ c ≠ '"') :
    ∀ rest, parseRowGo .unq (f ++ rest) = prependFirst f (parseRowGo .unq rest) := by
  induction f with
  | nil =>
    intro rest
    rw [List.nil_append, prependFirst_nil _ (parseRowGo_ne_nil _ _)]
  | cons c f ih =>
    intro rest
    have hc := h c (List.mem_cons_self c f)
    have hf : ∀ x ∈ f, x ≠ ',' ∧ x ≠ '"' := fun x hx => h x (List.mem_cons_of_mem c hx)
    rw [List.cons_append]
    simp only [parseRowGo, if_neg hc.1, if_neg hc.2]
    rw [ih hf rest, consField_prependFirst]

/-- Inside quotes, a doubled-quote-encoded block followed by the closing
quote decodes back to the original block. -/
theorem parseRowGo_quo_dup (f : List Char) :
    ∀ rest, parseRowGo .quo (dupQuotes f ++ ( '"' :: rest)) =
      prependFirst f (parseRowGo .aft rest) := by
  induction f with
  | nil =>
    intro rest
    rw [show dupQuotes [] ++ ( '"' :: rest) = '"' :: rest from rfl]
    rw [prependFirst_nil _ (parseRowGo_ne_nil _ _)]
    simp [parseRowGo]
  | cons c f ih =>
    intro rest
    by_cases hc : c = '"'
    · subst hc
      rw [show dupQuotes ( '"' :: f) = '"' :: '"' :: dupQuotes f by simp [dupQuotes]]
      rw [List.cons_append, List.cons_append]
      simp only [parseRowGo, if_pos rfl, if_true]
      rw [ih rest]
      simp only [consField_prependFirst]
    · rw [show dupQuotes (c :: f) = c :: dupQuotes f by simp [dupQuotes, hc]]
      rw [List.cons_append]
      simp only [parseRowGo, if_neg hc]
      rw [ih rest, consField_prependFirst]

/-- On a rest that is empty or starts at a comma, the after-quote and
unquoted modes agree. -/
theorem parseRowGo_aft_eq_unq (rest : List Char)
    (hrest : rest = [] ∨ (∃ r, rest = ',' :: r)) :
    parseRowGo .aft rest = parseRowGo .unq rest := by
  rcases hrest with rfl | ⟨r, rfl⟩
  · rfl
  · have h1 : ( ',' : Char) ≠ '"' := by decide
    simp only [parseRowGo, if_neg h1, if_pos rfl, if_true]

/-- One escaped field followed by a comma or the record end parses back to
the original field. -/
theorem parse_escaped (f : List Char) (rest : List Char)
    (hrest : rest = [] ∨ (∃ r, rest = ',' :: r)) :
    parseRowGo .unq (csvEscapeL f ++ rest) = prependFirst f (parseRowGo .unq rest) := by
  unfold csvEscapeL
  split_ifs with hsp
  · have hq1 : ( '"' : Char) ≠ ',' := by decide
    rw [List.cons_append, List.append_assoc]
    simp only [parseRowGo, if_neg hq1, if_pos rfl, if_true]
    rw [show [ '"' ] ++ rest = '"' :: rest from rfl]
    rw [parseRowGo_quo_dup f rest, parseRowGo_aft_eq_unq rest hrest]
  · have hclean : ∀ c ∈ f, c ≠ ',' ∧ c ≠ '"' := by
      intro c hc
      constructor
      · intro heq; exact hsp (Or.inl (heq ▸ hc))
      · intro heq; exact hsp (Or.inr (Or.inl (heq ▸ hc)))
    exact parseRowGo_unq_clean f hclean rest

theorem parse_join : ∀ (vs : List (List Char)) (v : List Char),
    parseRowGo .unq (joinCommaL ((v :: vs).map csvEscapeL)) = v :: vs := by
  intro vs
  induction vs with
  | nil =>
    intro v
    simp only [List.map_cons, List.map_nil, joinCommaL]
    have h := parse_escaped v [] (Or.inl rfl)
    rw [← List.append_nil (csvEscapeL v), h]
    simp [parseRowGo, prependFirst]
  | cons w ws ih =>
    intro v
    simp only [List.map_cons, joinCommaL]
    rw [parse_escaped v ( ',' :: joinCommaL (csvEscapeL w :: ws.map csvEscapeL))
      (Or.inr ⟨_, rfl⟩)]
    have h1 : ( ',' : Char) = ',' := rfl
    simp only [parseRowGo, if_pos h1, if_true]
    have h2 := ih w
    simp only [List.map_cons] at h2
    rw [h2]
    simp [prependFirst]

theorem string_mk_data (s : String) : String.mk s.data = s := rfl

/-- C8: csvEscape wraps a field containing a comma, a quote or a newline
in quotes with inner quotes doubled, emits any other field as plain text,
and renders a null/undefined value as an empty field; consequently any
written row, including fields containing commas, quotes and newlines,
parses back to exactly the original fields with a standard
delimited-text reader. -/
theorem claim_C8 :
    (∀ s : String,
      csvEscape (some s) =
        if ',' ∈ s.data ∨ '"' ∈ s.data ∨ '\n' ∈ s.data
        then String.mk ( '"' :: (dupQuotes s.data ++ [ '"' ]))
        else s) ∧
    csvEscape none = "" ∧
    (∀ (v : String) (vs : List String),
      parseRow (csvRow ((v :: vs).map some)) = v :: vs) := by
  refine ⟨?_, rfl, ?_⟩
  · intro s
    show String.mk (csvEscapeL s.data) = _
    unfold csvEscapeL
    split_ifs with h
    · rfl
    · rfl
  · intro v vs
    unfold parseRow csvRow
    have hmap : ((v :: vs).map some).map (fun o => (csvEscape o).data) =
        (v.data :: vs.map String.data).map csvEscapeL := by
      simp only [List.map_cons, List.map_map]
      rfl
    rw [show (String.mk (joinCommaL (((v :: vs).map some).map
            (fun x => (csvEscape x).data)))).data =
          joinCommaL (((v :: vs).map some).map (fun x => (csvEscape x).data)) from rfl]
    rw [hmap, parse_join]
    simp only [List.map_cons, string_mk_data, List.map_map]
    congr 1
    have : (fun x => String.mk (String.data x)) = (id : String → String) := by
      funext x; rfl
    rw [show String.mk ∘ String.data = (fun x => String.mk (String.data x)) from rfl]
    rw [this, List.map_id]

/-! Token-structured strings: a template is a list of chunks, each a
literal block or one of the thirteen tokens; rendering concatenates.
Substitution passes act chunk-wise on rendered templates, which is the
heart of the commutativity and idempotence analysis of C6 and C7. -/

/-- A template chunk: literal text or one token. -/
inductive Chunk where
  | lit (l : List Char)
  | tok (t : TokName)
  deriving DecidableEq

def renderChunk : Chunk → List Char
  | .lit l => l
  | .tok t => tokText t

def render : List Chunk → List Char
  | [] => []
  | c :: cs => renderChunk c ++ render cs

/-- A chunk is well formed when a literal block contains no opening
brace. -/
def chunkOkB : Chunk → Bool
  | .lit l => decide ( '{' ∉ l)
  | .tok _ => true

abbrev ChunksOk (cs : List Chunk) : Prop := ∀ c ∈ cs, chunkOkB c = true

/-- Result of one token substitution on a chunk. -/
def substChunk (t : TokName) (rep : List Char) : Chunk → Chunk
  | .lit l => .lit l
  | .tok u => if u = t then .lit rep else .tok u

theorem replaceAllFrom_skip_lit (t : TokName) (rep l before rest : List Char)
    (hl : '{' ∉ l) :
    replaceAllFrom (tokText t) rep before (l ++ rest) =
      l ++ replaceAllFrom (tokText t) rep (before ++ l) rest :=
  replaceAllFrom_append_skip '{' (tokName t ++ [ '}' ]) rep l before rest hl

/-- One global token replacement with a dollar-free replacement acts
chunk-wise on a rendered template, whatever original prefix has already
been scanned. -/
theorem replaceAllFrom_render (t : TokName) (rep : List Char)
    (hrep : dollarChar ∉ rep) :
    ∀ (cs : List Chunk) (before : List Char), ChunksOk cs →
      replaceAllFrom (tokText t) rep before (render cs) =
        render (cs.map (substChunk t rep)) := by
  intro cs
  induction cs with
  | nil => intro before _; rfl
  | cons c cs ih =>
    intro before hok
    have hok2 : ChunksOk cs := fun x hx => hok x (List.mem_cons_of_mem _ hx)
    cases c with
    | lit l =>
      have hl : '{' ∉ l := by
        have := hok (.lit l) (List.mem_cons_self _ _)
        simpa [chunkOkB] using this
      rw [show render (.lit l :: cs) = l ++ render cs from rfl]
      rw [replaceAllFrom_skip_lit t rep l before (render cs) hl, ih (before ++ l) hok2]
      rfl
    | tok u =>
      by_cases ht : u = t
      · subst ht
        rw [show render (.tok u :: cs) = tokText u ++ render cs from rfl]
        rw [replaceAllFrom_tok_match u rep before (render cs) hrep, ih _ hok2]
        simp [render, renderChunk, substChunk]
      · rw [show render (.tok u :: cs) = tokText u ++ render cs from rfl]
        rw [replaceAllFrom_tok_skip t u (fun h => ht h.symm) rep before (render cs),
          ih _ hok2]
        simp [render, renderChunk, substChunk, ht]

/-- One global token replacement with a dollar-free replacement acts
chunk-wise on a rendered template. -/
theorem replaceAll_render (t : TokName) (rep : List Char) (hrep : dollarChar ∉ rep)
    (cs : List Chunk) (hok : ChunksOk cs) :
    replaceAll (render cs) (tokText t) rep = render (cs.map (substChunk t rep)) :=
  replaceAllFrom_render t rep hrep cs [] hok

/-- A token replacement whose token occurs in no chunk leaves the
rendered template unchanged, with no condition on the replacement text
(nothing is ever inserted). -/
theorem replaceAllFrom_render_nomatch (t : TokName) (rep : List Char) :
    ∀ (cs : List Chunk) (before : List Char), ChunksOk cs →
      (∀ u, Chunk.tok u ∈ cs → u ≠ t) →
      replaceAllFrom (tokText t) rep before (render cs) = render cs := by
  intro cs
  induction cs with
  | nil => intro before _ _; rfl
  | cons c cs ih =>
    intro before hok hno
    have hok2 : ChunksOk cs := fun x hx => hok x (List.mem_cons_of_mem _ hx)
    have hno2 : ∀ u, Chunk.tok u ∈ cs → u ≠ t :=
      fun u hu => hno u (List.mem_cons_of_mem _ hu)
    cases c with
    | lit l =>
      have hl : '{' ∉ l := by
        have := hok (.lit l) (List.mem_cons_self _ _)
        simpa [chunkOkB] using this
      rw [show render (.lit l :: cs) = l ++ render cs from rfl]
      rw [replaceAllFrom_skip_lit t rep l before (render cs) hl, ih (before ++ l) hok2 hno2]
    | tok u =>
      have hut : u ≠ t := hno u (List.mem_cons_self _ _)
      rw [show render (.tok u :: cs) = tokText u ++ render cs from rfl]
      rw [replaceAllFrom_tok_skip t u (fun h => hut h.symm) rep before (render cs),
        ih _ hok2 hno2]

theorem chunksOk_subst (t : TokName) (rep : List Char) (hrep : '{' ∉ rep)
    (cs : List Chunk) (h : ChunksOk cs) : ChunksOk (cs.map (substChunk t rep)) := by
  intro c hc
  rw [List.mem_map] at hc
  rcases hc with ⟨c0, hc0, rfl⟩
  cases c0 with
  | lit l => exact h (.lit l) hc0
  | tok u =>
    by_cases ht : u = t
    · simp [substChunk, ht, chunkOkB, hrep]
    · simp [substChunk, ht, chunkOkB]

/-- Chunk-level effect of a whole substitution chain. -/
def chunksSubs (subs : List (TokName × List Char)) (cs : List Chunk) : List Chunk :=
  subs.foldl (fun acc p => acc.map (substChunk p.1 p.2)) cs

/-- Chunk-level effect of a substitution chain on one chunk. -/
def pointSubs (subs : List (TokName × List Char)) (c : Chunk) : Chunk :=
  subs.foldl (fun c p => substChunk p.1 p.2 c) c

theorem chunksSubs_eq_map (subs : List (TokName × List Char)) :
    ∀ cs, chunksSubs subs cs = cs.map (pointSubs subs) := by
  induction subs with
  | nil =>
    intro cs
    rw [show pointSubs ([] : List (TokName × List Char)) = id from funext (fun c => rfl),
      List.map_id]
    rfl
  | cons p ps ih =>
    intro cs
    show chunksSubs ps (cs.map (substChunk p.1 p.2)) = _
    rw [ih, List.map_map]
    rfl

theorem chunksOk_chunksSubs (subs : List (TokName × List Char))
    (hreps : ∀ p ∈ subs, '{' ∉ p.2) :
    ∀ cs, ChunksOk cs → ChunksOk (chunksSubs subs cs) := by
  induction subs with
  | nil => intro cs h; exact h
  | cons p ps ih =>
    intro cs h
    exact ih (fun q hq => hreps q (List.mem_cons_of_mem _ hq)) _
      (chunksOk_subst p.1 p.2 (hreps p (List.mem_cons_self _ _)) cs h)

/-- A substitution chain whose values contain no opening brace and no
dollar acts chunk-wise on a rendered template. -/
theorem applySubs_render (subs : List (TokName × List Char))
    (hreps : ∀ p ∈ subs, '{' ∉ p.2 ∧ dollarChar ∉ p.2) :
    ∀ cs, ChunksOk cs →
      applySubs subs (render cs) = render (chunksSubs subs cs) := by
  induction subs with
  | nil => intro cs _; rfl
  | cons p ps ih =>
    intro cs hok
    show applySubs ps (replaceAll (render cs) (tokText p.1) p.2) = _
    rw [replaceAll_render p.1 p.2 (hreps p (List.mem_cons_self _ _)).2 cs hok]
    exact ih (fun q hq => hreps q (List.mem_cons_of_mem _ hq)) _
      (chunksOk_subst p.1 p.2 (hreps p (List.mem_cons_self _ _)).1 cs hok)

theorem pointSubs_lit (subs : List (TokName × List Char)) (l : List Char) :
    pointSubs subs (.lit l) = .lit l := by
  induction subs with
  | nil => rfl
  | cons p ps ih => exact ih

/-- The profile pass and the EHR pass commute on every single chunk: their
token namespaces are disjoint, and a chunk already turned into a literal
is never touched again. -/
theorem pointSubs_comm (pp : Option PatientProfile) (t : Terms) (c : Chunk) :
    pointSubs (ehrSubsOf t) (pointSubs (profSubsOf pp) c) =
      pointSubs (profSubsOf pp) (pointSubs (ehrSubsOf t) c) := by
  cases c with
  | lit l => rw [pointSubs_lit, pointSubs_lit, pointSubs_lit]
  | tok u => cases u <;> rfl

theorem toList_mk (l : List Char) : (String.mk l).toList = l := rfl

theorem resolveTemplateVars_mk (l : List Char) (scen : Scenario) :
    resolveTemplateVars (String.mk l) scen =
      String.mk (applySubs (profSubsOf scen.patientProfile) l) := rfl

theorem resolveEhrTerms_mk (td : TestDefs) (l : List Char) (e : String) :
    resolveEhrTerms td (String.mk l) e =
      String.mk (applySubs (ehrSubsOf (getTerms td e)) l) := rfl

/-- Core of C6: the two substitution chains commute on rendered
templates when all substitution values are brace- and dollar-free. -/
theorem resolve_comm_core (pp : Option PatientProfile) (t : Terms) (cs : List Chunk)
    (hcs : ChunksOk cs)
    (hprof : ∀ p ∈ profSubsOf pp, '{' ∉ p.2 ∧ dollarChar ∉ p.2)
    (hterms : ∀ p ∈ ehrSubsOf t, '{' ∉ p.2 ∧ dollarChar ∉ p.2) :
    applySubs (ehrSubsOf t) (applySubs (profSubsOf pp) (render cs)) =
      applySubs (profSubsOf pp) (applySubs (ehrSubsOf t) (render cs)) := by
  rw [applySubs_render _ hprof cs hcs]
  rw [applySubs_render _ hterms cs hcs]
  rw [applySubs_render _ hterms _
    (chunksOk_chunksSubs _ (fun q hq => (hprof q hq).1) cs hcs)]
  rw [applySubs_render _ hprof _
    (chunksOk_chunksSubs _ (fun q hq => (hterms q hq).1) cs hcs)]
  rw [chunksSubs_eq_map, chunksSubs_eq_map, chunksSubs_eq_map, chunksSubs_eq_map,
    List.map_map, List.map_map]
  exact congrArg render (List.map_congr_left (fun c _ => pointSubs_comm pp t c))

/-- C6 amended: on token-structured input (a rendered template whose
literal blocks contain no opening brace), and whenever the scenario's
profile substitution values and the vendor's terminology values contain
neither an opening brace nor a dollar (whose JS replacement patterns
could re-insert or duplicate token text), the profile pass and the EHR
pass commute; the reference implementation applies the profile pass
first, then the EHR pass, on the same string.  Without these hypotheses
the two passes need not commute (claim_C6_counterexample). -/
theorem claim_C6 (cs : List Chunk) (scen : Scenario) (td : TestDefs) (e : String)
    (hcs : ChunksOk cs)
    (hprof : ∀ p ∈ profSubsOf scen.patientProfile, '{' ∉ p.2 ∧ dollarChar ∉ p.2)
    (hterms : ∀ p ∈ ehrSubsOf (getTerms td e), '{' ∉ p.2 ∧ dollarChar ∉ p.2) :
    resolveEhrTerms td (resolveTemplateVars (String.mk (render cs)) scen) e =
        resolveTemplateVars (resolveEhrTerms td (String.mk (render cs)) e) scen ∧
      (∀ lbl st n, (stepActionRow td e lbl scen st n).desc =
        resolveEhrTerms td (resolveTemplateVars st.action scen) e) := by
  refine ⟨?_, fun lbl st n => rfl⟩
  rw [resolveTemplateVars_mk, resolveEhrTerms_mk, resolveEhrTerms_mk,
    resolveTemplateVars_mk]
  exact congrArg String.mk
    (resolve_comm_core scen.patientProfile (getTerms td e) cs hcs hprof hterms)

/-- C6 counterexample fixtures: a profile whose chiefComplaint value is
itself an EHR token. -/
def c6Profile : PatientProfile :=
  ⟨"", "", "", some "\x7bflowsheet\x7d", none, none, none, none, none⟩

def c6Scenario : Scenario :=
  ⟨"k", "n", "p", "d", "w", some c6Profile, [], [], []⟩

def c6Td : TestDefs := ⟨[], [], [("Epic", exTerms)], []⟩

/-- Dollar-backquote: the JS preceding-portion replacement pattern. -/
def dollarBackquote : String := String.mk [Char.ofNat 36, Char.ofNat 96]

/-- Dollar-quote: the JS following-portion replacement pattern. -/
def dollarQuote : String := String.mk [Char.ofNat 36, Char.ofNat 39]

/-- Dollar fixtures for C6: brace-free profile and terminology values
built from JS dollar patterns. -/
def c6dProfile : PatientProfile :=
  ⟨"", "", "", some dollarBackquote, none, none, none, none, none⟩

def c6dScenario : Scenario :=
  ⟨"k2", "n2", "p", "d", "w", some c6dProfile, [], [], []⟩

def c6dTerms : Terms := ⟨dollarQuote, "PL", "AF", "NT", "OE", "SB"⟩

def c6dTd : TestDefs := ⟨[], [], [("Epic", c6dTerms)], []⟩

/-- C6 counterexample, two failure modes: (1) a scenario whose profile
value is itself an EHR token — profile-first resolves it further, EHR
first leaves it literal; (2) even with brace-free values, JS dollar
patterns in the values (here the preceding- and following-portion
patterns) make the two orders differ on the token-structured input
consisting of the flowsheet token followed by the chiefComplaint
token. -/
theorem claim_C6_counterexample :
    (resolveEhrTerms c6Td
        (resolveTemplateVars "\x7bchiefComplaint\x7d" c6Scenario) "Epic" ≠
      resolveTemplateVars
        (resolveEhrTerms c6Td "\x7bchiefComplaint\x7d" "Epic") c6Scenario) ∧
    (resolveEhrTerms c6dTd
        (resolveTemplateVars "\x7bflowsheet\x7d\x7bchiefComplaint\x7d" c6dScenario)
          "Epic" ≠
      resolveTemplateVars
        (resolveEhrTerms c6dTd "\x7bflowsheet\x7d\x7bchiefComplaint\x7d" "Epic")
          c6dScenario) := by
  refine ⟨by decide, by decide⟩

def c6Chunks : List Chunk :=
  [.lit "Check ".data, .tok .flowsheet, .lit " for ".data, .tok .chiefComplaint]

/-- Witness for the amended C6 at a concrete token-structured template. -/
theorem claim_C6_witness :
    resolveEhrTerms exTestDefs
        (resolveTemplateVars (String.mk (render c6Chunks)) exScenario1) "Epic" =
      resolveTemplateVars
        (resolveEhrTerms exTestDefs (String.mk (render c6Chunks)) "Epic") exScenario1 :=
  (claim_C6 c6Chunks exScenario1 exTestDefs "Epic"
    (by decide) (by decide) (by decide)).1

/-- The six tokens handled by the EHR pass. -/
def isEhrTok : TokName → Bool
  | .flowsheet | .patientList | .alertFlag | .noteType | .orderEntry | .storyboard => true
  | _ => false

/-- The EHR substitution chain is idempotent chunk-wise. -/
theorem pointSubs_ehr_idem (t : Terms) (c : Chunk) :
    pointSubs (ehrSubsOf t) (pointSubs (ehrSubsOf t) c) = pointSubs (ehrSubsOf t) c := by
  cases c with
  | lit l => rw [pointSubs_lit, pointSubs_lit]
  | tok u => cases u <;> rfl

/-- A substitution chain none of whose tokens occurs in the template
leaves the rendered template unchanged. -/
theorem applySubs_render_nomatch (subs : List (TokName × List Char)) :
    ∀ cs, ChunksOk cs → (∀ p ∈ subs, ∀ u, Chunk.tok u ∈ cs → u ≠ p.1) →
      applySubs subs (render cs) = render cs := by
  induction subs with
  | nil => intro cs _ _; rfl
  | cons p ps ih =>
    intro cs hcs hno
    show applySubs ps (replaceAll (render cs) (tokText p.1) p.2) = render cs
    rw [show replaceAll (render cs) (tokText p.1) p.2 =
        replaceAllFrom (tokText p.1) p.2 [] (render cs) from rfl]
    rw [replaceAllFrom_render_nomatch p.1 p.2 cs [] hcs
      (fun u hu => hno p (List.mem_cons_self _ _) u hu)]
    exact ih cs hcs (fun q hq u hu => hno q (List.mem_cons_of_mem _ hq) u hu)

/-- C7 amended: the EHR terminology resolver (a pure function in this
embedding) is idempotent on token-structured input whenever the vendor's
terminology values contain neither an opening brace nor a dollar (whose
JS replacement patterns could re-insert token text); an unknown vendor
key resolves exactly as the default vendor Epic does; and a template
whose tokens are all outside the six-token EHR namespace is left as
literal text unchanged.  On arbitrary strings with an arbitrary
terminology document idempotence can fail (claim_C7_counterexample). -/
theorem claim_C7 :
    (∀ (td : TestDefs) (e : String) (cs : List Chunk), ChunksOk cs →
      (∀ p ∈ ehrSubsOf (getTerms td e), '{' ∉ p.2 ∧ dollarChar ∉ p.2) →
      resolveEhrTerms td (resolveEhrTerms td (String.mk (render cs)) e) e =
        resolveEhrTerms td (String.mk (render cs)) e) ∧
    (∀ (td : TestDefs) (text : String) (e : String),
      td.ehrTerminology.lookup e = none →
      resolveEhrTerms td text e = resolveEhrTerms td text "Epic") ∧
    (∀ (td : TestDefs) (e : String) (cs : List Chunk), ChunksOk cs →
      (∀ t : TokName, Chunk.tok t ∈ cs → isEhrTok t = false) →
      resolveEhrTerms td (String.mk (render cs)) e = String.mk (render cs)) := by
  refine ⟨?_, ?_, ?_⟩
  · intro td e cs hcs hterms
    rw [resolveEhrTerms_mk, resolveEhrTerms_mk]
    apply congrArg String.mk
    rw [applySubs_render _ hterms cs hcs]
    rw [applySubs_render _ hterms _
      (chunksOk_chunksSubs _ (fun q hq => (hterms q hq).1) cs hcs)]
    apply congrArg render
    rw [chunksSubs_eq_map, chunksSubs_eq_map, List.map_map]
    exact List.map_congr_left
      (fun c _ => pointSubs_ehr_idem (getTerms td e) c)
  · intro td text e h
    unfold resolveEhrTerms getTerms
    rw [h]
    cases hE : td.ehrTerminology.lookup "Epic" <;> simp [Option.orElse]
  · intro td e cs hcs hnotok
    rw [resolveEhrTerms_mk]
    apply congrArg String.mk
    apply applySubs_render_nomatch _ cs hcs
    intro p hp u hu hup
    have hEp : isEhrTok p.1 = true := by
      simp only [ehrSubsOf, List.mem_cons, List.not_mem_nil, or_false] at hp
      rcases hp with rfl | rfl | rfl | rfl | rfl | rfl <;> rfl
    rw [← hup] at hEp
    rw [hnotok u hu] at hEp
    exact Bool.false_ne_true hEp

/-- C7 counterexample fixtures: an Epic terminology entry whose
patientList value is itself the flowsheet token, and one whose brace-free
flowsheet value carries the JS whole-match replacement pattern. -/
def c7Terms : Terms := ⟨"F", "\x7bflowsheet\x7d", "A", "N", "O", "S"⟩

def c7Td : TestDefs := ⟨[], [], [("Epic", c7Terms)], []⟩

def c7dTerms : Terms := ⟨"x$&y", "PL", "AF", "NT", "OE", "SB"⟩

def c7dTd : TestDefs := ⟨[], [], [("Epic", c7dTerms)], []⟩

/-- C7 counterexample, two failure modes: (1) when a terminology value
itself contains an EHR token, one application of the resolver can produce
a token that a second application then replaces; (2) even with brace-free
values, a dollar-ampersand in a value re-inserts the matched token text,
so a second application wraps it again — the resolver is not idempotent
on every input string for every terminology document. -/
theorem claim_C7_counterexample :
    (resolveEhrTerms c7Td
        (resolveEhrTerms c7Td "\x7bpatientList\x7d" "Epic") "Epic" ≠
      resolveEhrTerms c7Td "\x7bpatientList\x7d" "Epic") ∧
    (resolveEhrTerms c7dTd
        (resolveEhrTerms c7dTd "\x7bflowsheet\x7d" "Epic") "Epic" ≠
      resolveEhrTerms c7dTd "\x7bflowsheet\x7d" "Epic") := by
  refine ⟨by decide, by decide⟩

def c7Chunks : List Chunk :=
  [.lit "Open ".data, .tok .patientList, .lit " and ".data, .tok .flowsheet]

def c7ProfChunks : List Chunk :=
  [.lit "note ".data, .tok .diagnosis, .tok .antibiotics]

/-- Witness for the amended C7: concrete idempotence, Epic fallback for an
unknown vendor, and non-EHR tokens left literal. -/
theorem claim_C7_witness :
    (resolveEhrTerms exTestDefs
        (resolveEhrTerms exTestDefs (String.mk (render c7Chunks)) "Epic") "Epic" =
      resolveEhrTerms exTestDefs (String.mk (render c7Chunks)) "Epic") ∧
    (resolveEhrTerms exTestDefs "go to \x7bflowsheet\x7d" "Meditech" =
      resolveEhrTerms exTestDefs "go to \x7bflowsheet\x7d" "Epic") ∧
    (resolveEhrTerms exTestDefs (String.mk (render c7ProfChunks)) "Epic" =
      String.mk (render c7ProfChunks)) := by
  refine ⟨claim_C7.1 exTestDefs "Epic" c7Chunks (by decide) (by decide),
    claim_C7.2.1 exTestDefs "go to \x7bflowsheet\x7d" "Meditech" (by decide),
    claim_C7.2.2 exTestDefs "Epic" c7ProfChunks (by decide) (by decide)⟩

theorem getFlagTests_none (fd : FlagData) (td : TestDefs) (pk : String) :
    getFlagTests fd td pk none = ⟨[], []⟩ := rfl

theorem scenarioFlagTests_none (fd : FlagData) (td : TestDefs) (s : Scenario) :
    scenarioFlagTests fd td none s = [] := rfl

theorem part2Rows_none (fd : FlagData) (td : TestDefs) (ehr : String) :
    ∀ (pks : List String) (n : Nat), part2Rows fd td ehr none pks n = ([], n) := by
  intro pks
  induction pks with
  | nil => intro n; rfl
  | cons pk rest ih =>
    intro n
    simp only [part2Rows, part2Product, getFlagTests_none, List.isEmpty_nil, if_true]
    rw [ih n]
    rfl

/-- Block-level shape of a scenario whose Flag Verification filter is
empty: only the four Part 1 section labels appear, and the only row with
the SCENARIO label is the header row. -/
theorem scenarioBlock_noFV_shape (fd : FlagData) (td : TestDefs) (ehr : String)
    (cfg : Option CustomerConfig) (s : Scenario) (n : Nat)
    (hsft : scenarioFlagTests fd td cfg s = []) :
    (scenarioBlock fd td ehr cfg s n).1.filter
        (fun r => r.sectionCol == "SCENARIO") = [scenarioHeaderRow s] ∧
      ∀ r ∈ (scenarioBlock fd td ehr cfg s n).1,
        r.sectionCol = "SCENARIO" ∨ r.sectionCol = "PATIENT SETUP" ∨
          r.sectionCol = "Setup" ∨ r.sectionCol = "Bayesian UI Test" := by
  have hrows : (scenarioBlock fd td ehr cfg s n).1 =
      scenarioHeaderRow s ::
        ((match s.patientProfile with
          | some p => [patientSetupRow s p]
          | none => []) ++
          (stepActionRows td ehr "Setup" s s.setupSteps
            (match s.patientProfile with
             | some _ => n + 1 + 1
             | none => n + 1)).1 ++
          (stepActionRows td ehr "Bayesian UI Test" s s.coreTestSteps
            (stepActionRows td ehr "Setup" s s.setupSteps
              (match s.patientProfile with
               | some _ => n + 1 + 1
               | none => n + 1)).2).1) := by
    simp only [scenarioBlock, hsft, List.isEmpty_nil, if_true, List.append_nil]
  constructor
  · rw [hrows]
    rw [List.filter_cons]
    rw [if_pos (by rw [scenarioHeaderRow_sectionCol]; rfl)]
    have hrest : ((match s.patientProfile with
          | some p => [patientSetupRow s p]
          | none => []) ++
          (stepActionRows td ehr "Setup" s s.setupSteps
            (match s.patientProfile with
             | some _ => n + 1 + 1
             | none => n + 1)).1 ++
          (stepActionRows td ehr "Bayesian UI Test" s s.coreTestSteps
            (stepActionRows td ehr "Setup" s s.setupSteps
              (match s.patientProfile with
               | some _ => n + 1 + 1
               | none => n + 1)).2).1).filter
            (fun r => r.sectionCol == "SCENARIO") = [] := by
      rw [List.filter_eq_nil_iff]
      intro r hr
      simp only [List.mem_append] at hr
      rcases hr with (hr | hr) | hr
      · cases hp : s.patientProfile with
        | none => rw [hp] at hr; simp at hr
        | some p =>
          rw [hp] at hr
          simp only [List.mem_singleton] at hr
          subst hr
          rw [patientSetupRow_sectionCol]
          decide
      · rw [stepActionRows_sectionCol td ehr "Setup" s _ _ r hr]
        decide
      · rw [stepActionRows_sectionCol td ehr "Bayesian UI Test" s _ _ r hr]
        decide
    rw [hrest]
  · intro r hr
    rw [hrows] at hr
    simp only [List.mem_cons, List.mem_append] at hr
    rcases hr with hh | (hh | hh) | hh
    · subst hh
      exact Or.inl (scenarioHeaderRow_sectionCol s)
    · cases hp : s.patientProfile with
      | none => rw [hp] at hh; simp at hh
      | some p =>
        rw [hp] at hh
        simp only [List.mem_singleton] at hh
        subst hh
        exact Or.inr (Or.inl (patientSetupRow_sectionCol s p))
    · exact Or.inr (Or.inr (Or.inl (stepActionRows_sectionCol td ehr "Setup" s _ _ r hh)))
    · exact Or.inr (Or.inr (Or.inr
        (stepActionRows_sectionCol td ehr "Bayesian UI Test" s _ _ r hh)))

theorem scenarioApplies_none (s : Scenario) (c : Customer) :
    scenarioApplies s c none =
      (c.products.contains s.product && s.requiredFlags.isEmpty) := by
  unfold scenarioApplies
  split_ifs with h1 h2
  · rw [h1, h2]
    rfl
  · have h2f : s.requiredFlags.isEmpty = false := by
      cases hb : s.requiredFlags.isEmpty
      · rfl
      · exact absurd hb h2
    rw [h1, h2f]
    rfl
  · have h1f : c.products.contains s.product = false := by
      cases hb : c.products.contains s.product
      · rfl
      · exact absurd hb h1
    rw [h1f]
    rfl

theorem part1Rows_none_headers (fd : FlagData) (td : TestDefs) (c : Customer) :
    ∀ (scenarios : List Scenario) (n : Nat),
      ((part1Rows fd td c none scenarios n).1.filter
          (fun r => r.sectionCol == "SCENARIO")).map Row.ident =
        (scenarios.filter
          (fun s => c.products.contains s.product && s.requiredFlags.isEmpty)).map
          (fun s => "=== " ++ s.name ++ " ===") := by
  intro scenarios
  induction scenarios with
  | nil => intro n; rfl
  | cons s rest ih =>
    intro n
    simp only [part1Rows, List.filter_cons]
    rw [scenarioApplies_none s c]
    by_cases happ : (c.products.contains s.product && s.requiredFlags.isEmpty) = true
    · rw [if_pos happ, if_pos happ]
      simp only [List.filter_append, List.map_append]
      rw [(scenarioBlock_noFV_shape fd td c.ehr none s n
        (scenarioFlagTests_none fd td s)).1]
      rw [ih]
      rfl
    · rw [if_neg happ, if_neg happ]
      exact ih n

theorem part1Rows_none_sections (fd : FlagData) (td : TestDefs) (c : Customer) :
    ∀ (scenarios : List Scenario) (n : Nat) (r : Row),
      r ∈ (part1Rows fd td c none scenarios n).1 →
        r.sectionCol = "SCENARIO" ∨ r.sectionCol = "PATIENT SETUP" ∨
          r.sectionCol = "Setup" ∨ r.sectionCol = "Bayesian UI Test" := by
  intro scenarios
  induction scenarios with
  | nil => intro n r hr; simp [part1Rows] at hr
  | cons s rest ih =>
    intro n r hr
    simp only [part1Rows] at hr
    by_cases happ : scenarioApplies s c none = true
    · rw [if_pos happ] at hr
      simp only [List.mem_append] at hr
      rcases hr with hh | hh
      · exact (scenarioBlock_noFV_shape fd td c.ehr none s n
          (scenarioFlagTests_none fd td s)).2 r hh
      · exact ih _ r hh
    · rw [if_neg happ] at hr
      exact ih n r hr

/-- C10: with no configuration entry for the customer, plan generation
still succeeds (the embedding is total): the plan is the header row plus
Part 1 only, Part 1's scenario headers are exactly the scenarios whose
product the customer owns and whose requiredFlags list is empty, every
row carries one of the four Part 1 section labels, and there are no
flag-verification or absence-test rows. -/
theorem claim_C10 (fd : FlagData) (td : TestDefs) (c : Customer)
    (h : fd.configurations.lookup c.key = none) :
    generateRows fd td c = headerRow :: (part1Rows fd td c none td.scenarios 0).1 ∧
      ((generateRows fd td c).filter (fun r => r.sectionCol == "SCENARIO")).map
          Row.ident =
        (td.scenarios.filter
          (fun s => c.products.contains s.product && s.requiredFlags.isEmpty)).map
          (fun s => "=== " ++ s.name ++ " ===") ∧
      ∀ r ∈ generateRows fd td c,
        r.sectionCol ≠ "FLAG VERIFICATION" ∧ r.sectionCol ≠ "Flag Verification" ∧
          r.sectionCol ≠ "ABSENCE TESTS" ∧ r.sectionCol ≠ "Absence Test" := by
  have hgen : generateRows fd td c =
      headerRow :: (part1Rows fd td c none td.scenarios 0).1 := by
    simp only [generateRows]
    rw [h]
    rw [part2Rows_none fd td c.ehr c.products]
    simp
  refine ⟨hgen, ?_, ?_⟩
  · rw [hgen]
    rw [List.filter_cons]
    rw [if_neg (by rw [show headerRow.sectionCol = "Section" from rfl]; decide)]
    exact part1Rows_none_headers fd td c td.scenarios 0
  · intro r hr
    rw [hgen] at hr
    rcases List.mem_cons.mp hr with hh | hh
    · subst hh
      rw [show headerRow.sectionCol = "Section" from rfl]
      refine ⟨by decide, by decide, by decide, by decide⟩
    · rcases part1Rows_none_sections fd td c td.scenarios 0 r hh with h4 | h4 | h4 | h4 <;>
        rw [h4] <;>
        exact ⟨by decide, by decide, by decide, by decide⟩

def c10Customer : Customer := ⟨"ghost_health", "Ghost Health", "Epic", ["sepsis", "meds"]⟩

/-- Witness for C10: a customer key absent from the configurations
document; only the requiredFlags-free owned-product scenario appears. -/
theorem claim_C10_witness :
    ((generateRows exFlagData exTestDefs c10Customer).filter
        (fun r => r.sectionCol == "SCENARIO")).map Row.ident =
      (exTestDefs.scenarios.filter
        (fun s => c10Customer.products.contains s.product && s.requiredFlags.isEmpty)).map
        (fun s => "=== " ++ s.name ++ " ===") :=
  (claim_C10 exFlagData exTestDefs c10Customer (by decide)).2.1

/-- One absence-test block of the spec-shaped Part 2: an optional
category sub-header (exactly when the category differs from the previous
flag test's category) followed by one VERIFY ABSENT row per criterion. -/
def critBlock (td : TestDefs) (ehr : String) (ft : FlagTest) (withHeader : Bool)
    (n : Nat) : List Row × Nat :=
  let body := critRows td ehr "Absence Test" "VERIFY ABSENT" ft ft.criteria n
  ((if withHeader then [catHeaderRow ft.category] else []) ++ body.1, body.2)

def absenceSpecGo (td : TestDefs) (ehr : String) :
    List (FlagTest × Option String) → Nat → List Row × Nat
  | [], n => ([], n)
  | (ft, prev) :: rest, n =>
    let hd := critBlock td ehr ft (decide (prev ≠ some ft.category)) n
    let tl := absenceSpecGo td ehr rest hd.2
    (hd.1 ++ tl.1, tl.2)

/-- Spec-shaped absence rows of one product: each flag test paired with
the category of its predecessor, a sub-header appearing exactly where the
category changes (the first test always gets one). -/
def absenceSpecRows (td : TestDefs) (ehr : String) (dfs : List FlagTest)
    (n : Nat) : List Row × Nat :=
  absenceSpecGo td ehr (dfs.zip (none :: dfs.map (fun ft => some ft.category))) n

/-- Spec-shaped Part 2 contribution of one owned product, following the
claim: nothing when the product has no disabled-flag tests, otherwise one
section header row and the grouped VERIFY ABSENT rows, numbering
continuing the running counter. -/
def part2SpecProduct (fd : FlagData) (td : TestDefs) (ehr : String)
    (cfg : Option CustomerConfig) (pk : String) (n : Nat) : List Row × Nat :=
  let disabled := (getFlagTests fd td pk cfg).disabled
  if disabled.isEmpty then ([], n)
  else
    let productName := jsOr ((fd.products.find? (fun p => p.key == pk)).map (·.name)) pk
    let body := absenceSpecRows td ehr disabled n
    (absenceHeaderRow productName :: body.1, body.2)

def part2SpecRows (fd : FlagData) (td : TestDefs) (ehr : String)
    (cfg : Option CustomerConfig) : List String → Nat → List Row × Nat
  | [], n => ([], n)
  | pk :: rest, n =>
    let hd := part2SpecProduct fd td ehr cfg pk n
    let tl := part2SpecRows fd td ehr cfg rest hd.2
    (hd.1 ++ tl.1, tl.2)

theorem absenceGo_eq_spec (td : TestDefs) (ehr : String) :
    ∀ (dfs : List FlagTest) (cur : Option String) (n : Nat),
      absenceRowsGo td ehr cur dfs n =
        absenceSpecGo td ehr
          (dfs.zip (cur :: dfs.map (fun ft => some ft.category))) n := by
  intro dfs
  induction dfs with
  | nil => intro cur n; rfl
  | cons ft rest ih =>
    intro cur n
    simp only [absenceRowsGo, List.map_cons, List.zip_cons_cons, absenceSpecGo,
      critBlock]
    rw [ih (some ft.category)]
    by_cases hcur : cur = some ft.category
    · simp [hcur, List.zip]
    · simp [hcur, List.zip]

theorem part2Product_eq_spec (fd : FlagData) (td : TestDefs) (ehr : String)
    (cfg : Option CustomerConfig) (pk : String) (n : Nat) :
    part2Product fd td ehr cfg pk n = part2SpecProduct fd td ehr cfg pk n := by
  unfold part2Product part2SpecProduct absenceSpecRows
  simp only [absenceGo_eq_spec]

/-- C5 amended: Part 2 emits, for each owned product in the order of the
customer's own products list (not catalog order), nothing when the
product has no disabled-flag tests and otherwise a section header
followed by the flag tests in catalog order with a category sub-header
exactly where the category changes, one VERIFY ABSENT row per criterion
per flag, numbered by the same running counter continued from Part 1. -/
theorem claim_C5 :
    (∀ (fd : FlagData) (td : TestDefs) (ehr : String) (cfg : Option CustomerConfig)
      (pks : List String) (n : Nat),
      part2Rows fd td ehr cfg pks n = part2SpecRows fd td ehr cfg pks n) ∧
    (∀ (fd : FlagData) (td : TestDefs) (c : Customer),
      generateRows fd td c =
        headerRow ::
          ((part1Rows fd td c (fd.configurations.lookup c.key) td.scenarios 0).1 ++
            (part2Rows fd td c.ehr (fd.configurations.lookup c.key) c.products
              (part1Rows fd td c (fd.configurations.lookup c.key) td.scenarios 0).2).1)) := by
  constructor
  · intro fd td ehr cfg pks
    induction pks with
    | nil => intro n; rfl
    | cons pk rest ih =>
      intro n
      simp only [part2Rows, part2SpecRows]
      rw [part2Product_eq_spec, ih]
  · intro fd td c
    rfl

/-! C5 counterexample fixtures: the customer lists its products in the
opposite of catalog order, and both products have disabled-flag tests. -/

def c5FlagX : FlagDef := ⟨"fx", "Flag X", .products ["pA"]⟩

def c5FlagY : FlagDef := ⟨"fy", "Flag Y", .products ["pB"]⟩

def c5Customer : Customer := ⟨"cust5", "C5", "Epic", ["pB", "pA"]⟩

def c5Config : CustomerConfig := [("pA", ⟨[("fx", false)]⟩), ("pB", ⟨[("fy", false)]⟩)]

def c5Fd : FlagData :=
  ⟨[("cat1", [c5FlagX, c5FlagY])], [("cust5", c5Config)],
   [⟨"pA", "Product A"⟩, ⟨"pB", "Product B"⟩], [c5Customer]⟩

def c5Td : TestDefs :=
  ⟨[], [("fx", ⟨none, some [⟨none, "no X"⟩]⟩), ("fy", ⟨none, some [⟨none, "no Y"⟩]⟩)],
   [("Epic", exTerms)], []⟩

/-- Modelled from the spec: the catalog-ordered owned-product sequence the
claim asserts for Part 2 (the claim's "per owned product in catalog
order"). -/
def specCatalogOrderProducts (fd : FlagData) (c : Customer) : List String :=
  (fd.products.map (fun p => p.key)).filter (fun k => c.products.contains k)

/-- C5 counterexample: the source iterates customer.products as listed, so
the absence sections appear in the customer's order (Product B before
Product A), while the claim's catalog order would put Product A first. -/
theorem claim_C5_counterexample :
    ((generateRows c5Fd c5Td c5Customer).filter
        (fun r => r.sectionCol == "ABSENCE TESTS")).map Row.ident =
      ["=== Product B: Disabled Flag Verification ===",
       "=== Product A: Disabled Flag Verification ==="] ∧
    (specCatalogOrderProducts c5Fd c5Customer).map
        (fun k => "=== " ++ jsOr ((c5Fd.products.find? (fun p => p.key == k)).map
          (fun p => p.name)) k ++ ": Disabled Flag Verification ===") =
      ["=== Product A: Disabled Flag Verification ===",
       "=== Product B: Disabled Flag Verification ==="] ∧
    ((generateRows c5Fd c5Td c5Customer).filter
        (fun r => r.sectionCol == "ABSENCE TESTS")).map Row.ident ≠
      (specCatalogOrderProducts c5Fd c5Customer).map
        (fun k => "=== " ++ jsOr ((c5Fd.products.find? (fun p => p.key == k)).map
          (fun p => p.name)) k ++ ": Disabled Flag Verification ===") := by
  refine ⟨by decide, by decide, by decide⟩

/-- Row correspondence for two plans that may differ only in EHR vendor:
all columns agree except that the description and expected-result cells
are either equal or the two vendors' resolutions of one common
pre-resolution text. -/
def RowRel (td : TestDefs) (e1 e2 : String) (r1 r2 : Row) : Prop :=
  r1.stepCol = r2.stepCol ∧ r1.sectionCol = r2.sectionCol ∧ r1.ident = r2.ident ∧
    r1.user = r2.user ∧
    (r1.desc = r2.desc ∨
      ∃ t, r1.desc = resolveEhrTerms td t e1 ∧ r2.desc = resolveEhrTerms td t e2) ∧
    (r1.expected = r2.expected ∨
      ∃ t, r1.expected = resolveEhrTerms td t e1 ∧
        r2.expected = resolveEhrTerms td t e2) ∧
    r1.result = r2.result ∧ r1.passFail = r2.passFail ∧ r1.notes = r2.notes

theorem RowRel_refl (td : TestDefs) (e1 e2 : String) (r : Row) :
    RowRel td e1 e2 r r :=
  ⟨rfl, rfl, rfl, rfl, Or.inl rfl, Or.inl rfl, rfl, rfl, rfl⟩

theorem stepActionRows_rel (td : TestDefs) (e1 e2 lbl : String) (scen : Scenario) :
    ∀ (steps : List ScenStep) (n : Nat),
      List.Forall₂ (RowRel td e1 e2) (stepActionRows td e1 lbl scen steps n).1
          (stepActionRows td e2 lbl scen steps n).1 ∧
        (stepActionRows td e1 lbl scen steps n).2 =
          (stepActionRows td e2 lbl scen steps n).2 := by
  intro steps
  induction steps with
  | nil => intro n; exact ⟨List.Forall₂.nil, rfl⟩
  | cons st rest ih =>
    intro n
    refine ⟨List.Forall₂.cons ?_ (ih (n + 1)).1, (ih (n + 1)).2⟩
    exact ⟨rfl, rfl, rfl, rfl,
      Or.inr ⟨resolveTemplateVars st.action scen, rfl, rfl⟩,
      Or.inr ⟨resolveTemplateVars st.expected scen, rfl, rfl⟩, rfl, rfl, rfl⟩

theorem critRows_rel (td : TestDefs) (e1 e2 lbl exp : String) (ft : FlagTest) :
    ∀ (crs : List Criterion) (n : Nat),
      List.Forall₂ (RowRel td e1 e2) (critRows td e1 lbl exp ft crs n).1
          (critRows td e2 lbl exp ft crs n).1 ∧
        (critRows td e1 lbl exp ft crs n).2 = (critRows td e2 lbl exp ft crs n).2 := by
  intro crs
  induction crs with
  | nil => intro n; exact ⟨List.Forall₂.nil, rfl⟩
  | cons cr rest ih =>
    intro n
    refine ⟨List.Forall₂.cons ?_ (ih (n + 1)).1, (ih (n + 1)).2⟩
    exact ⟨rfl, rfl, rfl, rfl, Or.inr ⟨cr.step, rfl, rfl⟩, Or.inl rfl, rfl, rfl, rfl⟩

theorem flagTestsRows_rel (td : TestDefs) (e1 e2 lbl exp : String) :
    ∀ (fts : List FlagTest) (n : Nat),
      List.Forall₂ (RowRel td e1 e2) (flagTestsRows td e1 lbl exp fts n).1
          (flagTestsRows td e2 lbl exp fts n).1 ∧
        (flagTestsRows td e1 lbl exp fts n).2 =
          (flagTestsRows td e2 lbl exp fts n).2 := by
  intro fts
  induction fts with
  | nil => intro n; exact ⟨List.Forall₂.nil, rfl⟩
  | cons ft rest ih =>
    intro n
    have hc := critRows_rel td e1 e2 lbl exp ft ft.criteria n
    simp only [flagTestsRows]
    rw [hc.2]
    exact ⟨List.rel_append hc.1 (ih _).1, (ih _).2⟩

theorem scenarioBlock_rel (fd : FlagData) (td : TestDefs) (e1 e2 : String)
    (cfg : Option CustomerConfig) (scen : Scenario) (n : Nat) :
    List.Forall₂ (RowRel td e1 e2) (scenarioBlock fd td e1 cfg scen n).1
        (scenarioBlock fd td e2 cfg scen n).1 ∧
      (scenarioBlock fd td e1 cfg scen n).2 = (scenarioBlock fd td e2 cfg scen n).2 := by
  simp only [scenarioBlock]
  have hsetup := stepActionRows_rel td e1 e2 "Setup" scen scen.setupSteps
    (match scen.patientProfile with
     | some _ => n + 1 + 1
     | none => n + 1)
  rw [hsetup.2]
  have hcore := stepActionRows_rel td e1 e2 "Bayesian UI Test" scen scen.coreTestSteps
    (stepActionRows td e2 "Setup" scen scen.setupSteps
      (match scen.patientProfile with
       | some _ => n + 1 + 1
       | none => n + 1)).2
  rw [hcore.2]
  have hfv := flagTestsRows_rel td e1 e2 "Flag Verification" "VERIFY"
    (scenarioFlagTests fd td cfg scen)
    (stepActionRows td e2 "Bayesian UI Test" scen scen.coreTestSteps
      (stepActionRows td e2 "Setup" scen scen.setupSteps
        (match scen.patientProfile with
         | some _ => n + 1 + 1
         | none => n + 1)).2).2
  constructor
  · refine List.Forall₂.cons (RowRel_refl td e1 e2 _) ?_
    refine List.rel_append (List.rel_append (List.rel_append ?_ hsetup.1) hcore.1) ?_
    · cases scen.patientProfile with
      | none => exact List.Forall₂.nil
      | some p => exact List.Forall₂.cons (RowRel_refl td e1 e2 _) List.Forall₂.nil
    · split_ifs
      · exact List.Forall₂.nil
      · exact List.Forall₂.cons (RowRel_refl td e1 e2 _) hfv.1
  · split_ifs
    · rfl
    · exact hfv.2

theorem scenarioApplies_products (s : Scenario) (c1 c2 : Customer)
    (cfg : Option CustomerConfig) (hprod : c1.products = c2.products) :
    scenarioApplies s c1 cfg = scenarioApplies s c2 cfg := by
  unfold scenarioApplies
  rw [hprod]

theorem part1Rows_rel (fd : FlagData) (td : TestDefs) (c1 c2 : Customer)
    (cfg : Option CustomerConfig) (hprod : c1.products = c2.products) :
    ∀ (scenarios : List Scenario) (n : Nat),
      List.Forall₂ (RowRel td c1.ehr c2.ehr) (part1Rows fd td c1 cfg scenarios n).1
          (part1Rows fd td c2 cfg scenarios n).1 ∧
        (part1Rows fd td c1 cfg scenarios n).2 =
          (part1Rows fd td c2 cfg scenarios n).2 := by
  intro scenarios
  induction scenarios with
  | nil => intro n; exact ⟨List.Forall₂.nil, rfl⟩
  | cons s rest ih =>
    intro n
    simp only [part1Rows]
    rw [scenarioApplies_products s c1 c2 cfg hprod]
    split_ifs with happ
    · have hblk := scenarioBlock_rel fd td c1.ehr c2.ehr cfg s n
      rw [hblk.2]
      exact ⟨List.rel_append hblk.1 (ih _).1, (ih _).2⟩
    · exact ih n

theorem absenceRowsGo_rel (td : TestDefs) (e1 e2 : String) :
    ∀ (dfs : List FlagTest) (cur : Option String) (n : Nat),
      List.Forall₂ (RowRel td e1 e2) (absenceRowsGo td e1 cur dfs n).1
          (absenceRowsGo td e2 cur dfs n).1 ∧
        (absenceRowsGo td e1 cur dfs n).2 = (absenceRowsGo td e2 cur dfs n).2 := by
  intro dfs
  induction dfs with
  | nil => intro cur n; exact ⟨List.Forall₂.nil, rfl⟩
  | cons ft rest ih =>
    intro cur n
    simp only [absenceRowsGo]
    have hc := critRows_rel td e1 e2 "Absence Test" "VERIFY ABSENT" ft ft.criteria n
    rw [hc.2]
    refine ⟨List.rel_append (List.rel_append ?_ hc.1) (ih _ _).1, (ih _ _).2⟩
    split_ifs
    · exact List.Forall₂.cons (RowRel_refl td e1 e2 _) List.Forall₂.nil
    · exact List.Forall₂.nil

theorem part2Rows_rel (fd : FlagData) (td : TestDefs) (e1 e2 : String)
    (cfg : Option CustomerConfig) :
    ∀ (pks : List String) (n : Nat),
      List.Forall₂ (RowRel td e1 e2) (part2Rows fd td e1 cfg pks n).1
          (part2Rows fd td e2 cfg pks n).1 ∧
        (part2Rows fd td e1 cfg pks n).2 = (part2Rows fd td e2 cfg pks n).2 := by
  intro pks
  induction pks with
  | nil => intro n; exact ⟨List.Forall₂.nil, rfl⟩
  | cons pk rest ih =>
    intro n
    simp only [part2Rows, part2Product]
    split_ifs with hdis
    · exact ⟨List.rel_append List.Forall₂.nil (ih _).1, (ih _).2⟩
    · have ha := absenceRowsGo_rel td e1 e2 (getFlagTests fd td pk cfg).disabled none n
      rw [ha.2]
      exact ⟨List.rel_append
        (List.Forall₂.cons (RowRel_refl td e1 e2 _) ha.1) (ih _).1, (ih _).2⟩

/-- C9: two customers that differ only in EHR vendor (same products, same
configuration block, same documents otherwise) get plans with the same
number of rows and the same structure — step numbers, section labels,
scenario/flag identifiers and role labels all equal row by row — whose
description and expected-result cells differ only as the two vendors'
resolutions of one common pre-resolution text. -/
theorem claim_C9 (fd : FlagData) (td : TestDefs) (c1 c2 : Customer)
    (hprod : c1.products = c2.products)
    (hconf : fd.configurations.lookup c1.key = fd.configurations.lookup c2.key) :
    (generateRows fd td c1).length = (generateRows fd td c2).length ∧
      List.Forall₂ (RowRel td c1.ehr c2.ehr)
        (generateRows fd td c1) (generateRows fd td c2) := by
  have hrel : List.Forall₂ (RowRel td c1.ehr c2.ehr)
      (generateRows fd td c1) (generateRows fd td c2) := by
    simp only [generateRows]
    rw [hconf, hprod]
    have h1 := part1Rows_rel fd td c1 c2 (fd.configurations.lookup c2.key) hprod
      td.scenarios 0
    rw [h1.2]
    have h2 := part2Rows_rel fd td c1.ehr c2.ehr (fd.configurations.lookup c2.key)
      c2.products
      (part1Rows fd td c2 (fd.configurations.lookup c2.key) td.scenarios 0).2
    exact List.Forall₂.cons (RowRel_refl td c1.ehr c2.ehr _)
      (List.rel_append h1.1 h2.1)
  exact ⟨hrel.length_eq, hrel⟩

/-- Witness for C9: the two fixture customers differ only in EHR vendor
and share the same configuration block. -/
theorem claim_C9_witness :
    (generateRows exFlagData exTestDefs exCustomer).length =
        (generateRows exFlagData exTestDefs exCustomerCerner).length ∧
      List.Forall₂ (RowRel exTestDefs exCustomer.ehr exCustomerCerner.ehr)
        (generateRows exFlagData exTestDefs exCustomer)
        (generateRows exFlagData exTestDefs exCustomerCerner) :=
  claim_C9 exFlagData exTestDefs exCustomer exCustomerCerner (by decide) (by decide)

end BayesTest
